import Mathlib

/-!
# Verification of the GURT course-study backend against its specification

This file gives a shallow embedding, in Lean 4, of the parts of the GURT
backend that the specification's checkable claims talk about:

* the FSRS-style spaced-repetition scheduler (`study/fsrs.py`),
* knowledge-base retrieval scoping (`backend/generation.py`),
* the finalize handler's idempotent KB client token (`backend/ingest_workflow.py`),
* the `/study/today` selection policy (`backend/runtime.py`),
* model-output JSON extraction (`backend/generation.py`),
* Canvas assignment classification (`backend/canvas_client.py`),
* the mirrored-material object-store key (`backend/runtime.py`),
* the calendar-token record invariants (`gurt/calendar_tokens/model.py`),
* the `/study/review` endpoint (`backend/runtime.py`),
* the HTTP dispatch fall-through (`backend/runtime.py`).

Conventions used throughout the embedding:

* Python `str` values are Lean `String`s; helper functions mirror the exact
  Python string primitives used by the code (`str.strip`, `re.sub`, ...).
* Python `float` arithmetic is idealized as exact rational arithmetic (`ℚ`);
  `round(x, 6)` is modelled as round-half-to-even at six decimals, which is
  Python's rounding mode.
* RFC3339 timestamps are parsed to epoch seconds (proleptic Gregorian,
  via the standard days-from-civil computation); second-precision
  formatting is modelled by taking the floor to whole seconds.
* Fallible Python code (raising `ValueError` etc.) is modelled with
  `Except String` / `Option`.
-/

namespace GURT

/-! ## Python string primitives -/

/-- The ASCII whitespace characters stripped by Python `str.strip()` (and
matched by the regex class `\s` on ASCII text). -/
def pyIsSpace (c : Char) : Bool :=
  c = ' ' || c = '\t' || c = '\n' || c = '\r' || c = '\x0b' || c = '\x0c'

/-- Drop characters satisfying `p` from both ends of a character list. -/
def stripBothChars (p : Char → Bool) (l : List Char) : List Char :=
  ((l.dropWhile p).reverse.dropWhile p).reverse

/-- Python `str.strip()` (no argument): remove surrounding whitespace. -/
def pyStrip (s : String) : String :=
  String.mk (stripBothChars pyIsSpace s.data)

/-- ASCII lower-casing of one character, as Python `str.lower()` does for
ASCII input (the code only ever lowers ASCII identifiers and titles). -/
def pyLowerChar (c : Char) : Char :=
  if 'A' ≤ c && c ≤ 'Z' then Char.ofNat (c.toNat + 32) else c

/-- ASCII `str.lower()`. -/
def pyLower (s : String) : String :=
  String.mk (s.data.map pyLowerChar)

/-- Membership in `[0-9]`. -/
def isDigitCh (c : Char) : Bool := '0' ≤ c && c ≤ '9'

/-- Numeric value of a decimal digit character. -/
def digitVal (c : Char) : Nat := c.toNat - 48

/-! ## RFC3339 timestamps

`datetime` values are modelled by their epoch-second offsets in the
proleptic Gregorian calendar (the standard days-from-civil computation),
which matches both `datetime` comparison and `datetime` subtraction for
the UTC-only timestamps the code handles.
-/

/-- Gregorian leap-year test. -/
def isLeapYear (y : Nat) : Bool := (y % 4 = 0 && y % 100 ≠ 0) || y % 400 = 0

/-- Number of days in month `m` of year `y`. -/
def daysInMonth (y m : Nat) : Nat :=
  if m = 2 then (if isLeapYear y then 29 else 28)
  else if m = 4 || m = 6 || m = 9 || m = 11 then 30 else 31

/-- Days from the Unix epoch (1970-01-01) to the civil date `y-m-d`. -/
def daysFromCivil (y m d : Int) : Int :=
  let yy := if m ≤ 2 then y - 1 else y
  let era := (if 0 ≤ yy then yy else yy - 399) / 400
  let yoe := yy - era * 400
  let mp := if 2 < m then m - 3 else m + 9
  let doy := (153 * mp + 2) / 5 + d - 1
  let doe := yoe * 365 + yoe / 4 - yoe / 100 + doy
  era * 146097 + doe - 719468

/-- Epoch seconds of the UTC instant `y-mo-d h:mi:s`. -/
def epochSeconds (y mo d h mi s : Nat) : Int :=
  daysFromCivil y mo d * 86400 + (h * 3600 + mi * 60 + s)

/-- Does `s` match `^\d{4}-\d{2}-\d{2}T\d{2}:\d{2}:\d{2}Z$` (the calendar
token model's `_RFC3339_UTC_RE`)? Shape only; calendar ranges are checked
by `datetime.fromisoformat`, modelled by `parseRfc3339Z`. -/
def rfc3339ZShape (s : String) : Bool :=
  match s.data with
  | [y1, y2, y3, y4, '-', m1, m2, '-', d1, d2, 'T',
     h1, h2, ':', n1, n2, ':', s1, s2, 'Z'] =>
    [y1, y2, y3, y4, m1, m2, d1, d2, h1, h2, n1, n2, s1, s2].all isDigitCh
  | _ => false

/-- Parse the 14 digit characters of a `YYYY-MM-DDTHH:MM:SS` core and
validate calendar ranges exactly as `datetime` construction does
(`MINYEAR = 1`, month 1..12, day 1..days-in-month, h/m/s in range). -/
def parseCivil (y1 y2 y3 y4 m1 m2 d1 d2 h1 h2 n1 n2 s1 s2 : Char) : Option Int :=
  if [y1, y2, y3, y4, m1, m2, d1, d2, h1, h2, n1, n2, s1, s2].all isDigitCh then
    let y := ((digitVal y1 * 10 + digitVal y2) * 10 + digitVal y3) * 10 + digitVal y4
    let mo := digitVal m1 * 10 + digitVal m2
    let d := digitVal d1 * 10 + digitVal d2
    let h := digitVal h1 * 10 + digitVal h2
    let mi := digitVal n1 * 10 + digitVal n2
    let sec := digitVal s1 * 10 + digitVal s2
    if 1 ≤ y ∧ 1 ≤ mo ∧ mo ≤ 12 ∧ 1 ≤ d ∧ d ≤ daysInMonth y mo ∧
        h ≤ 23 ∧ mi ≤ 59 ∧ sec ≤ 59 then
      some (epochSeconds y mo d h mi sec)
    else none
  else none

/-- `datetime.fromisoformat(s.replace("Z", "+00:00"))` restricted to the
strict `YYYY-MM-DDTHH:MM:SSZ` shape: epoch seconds, or `none` when the
string is malformed or a calendar field is out of range. -/
def parseRfc3339Z (s : String) : Option Int :=
  match s.data with
  | [y1, y2, y3, y4, '-', m1, m2, '-', d1, d2, 'T',
     h1, h2, ':', n1, n2, ':', s1, s2, 'Z'] =>
    parseCivil y1 y2 y3 y4 m1 m2 d1 d2 h1 h2 n1 n2 s1 s2
  | _ => none

/-- Fractional-second tail admitted by the FSRS regex: either a plain `Z`,
or `.` followed by one to six digits and `Z`. Returns the fraction. -/
def parseFracTail : List Char → Option ℚ
  | ['Z'] => some 0
  | '.' :: rest =>
    let ds := rest.dropLast
    if rest.getLast? = some 'Z' && decide (1 ≤ ds.length) && decide (ds.length ≤ 6) &&
        ds.all isDigitCh then
      some (((ds.foldl (fun a c => a * 10 + digitVal c) 0 : Nat) : ℚ) / ((10 : ℚ) ^ ds.length))
    else none
  | _ => none

/-- `study/fsrs.py`'s `parse_rfc3339_utc`: strict RFC3339 UTC with trailing
`Z`, allowing up to six fractional-second digits. Epoch seconds as `ℚ`. -/
def parseRfc3339Frac (s : String) : Option ℚ :=
  match s.data with
  | y1 :: y2 :: y3 :: y4 :: '-' :: m1 :: m2 :: '-' :: d1 :: d2 :: 'T' ::
      h1 :: h2 :: ':' :: n1 :: n2 :: ':' :: s1 :: s2 :: rest =>
    match parseCivil y1 y2 y3 y4 m1 m2 d1 d2 h1 h2 n1 n2 s1 s2, parseFracTail rest with
    | some base, some frac => some ((base : ℚ) + frac)
    | _, _ => none
  | _ => none

/-! ## C7 — mirrored-material object-store key (`backend/runtime.py`)

`_MATERIAL_FILENAME_SANITIZE = re.compile(r"[^A-Za-z0-9._-]+")`,
`_safe_material_filename` and `_material_s3_key` are embedded below.
-/

/-- The character class `[A-Za-z0-9._-]` kept by the filename sanitizer. -/
def materialChar (c : Char) : Bool :=
  ('A' ≤ c && c ≤ 'Z') || ('a' ≤ c && c ≤ 'z') || ('0' ≤ c && c ≤ '9') ||
    c = '.' || c = '_' || c = '-'

/-- Worker for `re.sub(r"[^A-Za-z0-9._-]+", "_", ·)`: the flag records
whether we are inside a run of disallowed characters that has already
emitted its single `_`. -/
def sanitizeAux (inRun : Bool) : List Char → List Char
  | [] => []
  | c :: rest =>
    if materialChar c then c :: sanitizeAux false rest
    else if inRun then sanitizeAux true rest
    else '_' :: sanitizeAux true rest

/-- `re.sub(r"[^A-Za-z0-9._-]+", "_", s)`: every maximal run of characters
outside `[A-Za-z0-9._-]` becomes a single underscore. -/
def sanitizeRuns (l : List Char) : List Char := sanitizeAux false l

/-- `_safe_material_filename`: strip surrounding whitespace, replace each
disallowed run with `_`, strip leading/trailing `.`/`_`, and fall back to
`"material"` when nothing is left. -/
def safeMaterialFilename (name : String) : String :=
  let cleaned := String.mk (sanitizeRuns (pyStrip name).data)
  let cleaned2 := String.mk (stripBothChars (fun c => c = '.' || c = '_') cleaned.data)
  if cleaned2 = "" then "material" else cleaned2

/-- `_material_s3_key`: the canonical object-store key for a mirrored LMS
material. -/
def materialS3Key (userId courseId canvasFileId displayName : String) : String :=
  "uploads/canvas-materials/" ++ userId ++ "/" ++ courseId ++ "/" ++
    canvasFileId ++ "/" ++ safeMaterialFilename displayName

/-- The safe name exactly as the specification's words describe it: the
display name with every run of characters outside `[A-Za-z0-9._-]` replaced
by a single `_`, and nothing else changed. (Used to compare the spec's
claim with the code's behaviour.) -/
def specSafeName (displayName : String) : String :=
  String.mk (sanitizeRuns displayName.data)

/-! ## C8 — calendar token records (`gurt/calendar_tokens/model.py`)

`CalendarTokenRecord.__post_init__` validation, `mint` and `revoke` are
embedded below. Construction returns `Except` because `__post_init__`
raises `ValueError` on invalid fields (including the `ValueError` that
`datetime.fromisoformat` raises for out-of-range calendar fields).
-/

structure CalendarTokenRecord where
  token : String
  userId : String
  createdAt : String
  updatedAt : String
  revoked : Bool
  revokedAt : Option String
deriving DecidableEq

/-- Python truthiness of `self.revoked_at` when used as `not self.revoked_at`:
`None` and the empty string are falsy. -/
def falsyOptStr : Option String → Bool
  | none => true
  | some s => s = ""

/-- `CalendarTokenRecord.__post_init__`: field validation in source order. -/
def mkCalendarTokenRecord (token userId createdAt updatedAt : String)
    (revoked : Bool) (revokedAt : Option String) : Except String CalendarTokenRecord :=
  if pyStrip token = "" then .error "token must not be empty"
  else if pyStrip userId = "" then .error "user_id must not be empty"
  else if !rfc3339ZShape createdAt then .error "created_at must be RFC3339 UTC with trailing Z"
  else if !rfc3339ZShape updatedAt then .error "updated_at must be RFC3339 UTC with trailing Z"
  else if revoked && falsyOptStr revokedAt then .error "revoked_at is required when revoked=True"
  else if !revoked && revokedAt.isSome then .error "revoked_at must be omitted when revoked=False"
  else if revokedAt.any (fun s => !rfc3339ZShape s) then
    .error "revoked_at must be RFC3339 UTC with trailing Z"
  else
    match parseRfc3339Z createdAt, parseRfc3339Z updatedAt with
    | some created, some updated =>
      if updated < created then .error "updated_at must be >= created_at"
      else
        match revokedAt with
        | none => .ok ⟨token, userId, createdAt, updatedAt, revoked, none⟩
        | some ra =>
          match parseRfc3339Z ra with
          | some rv =>
            if rv < created then .error "revoked_at must be >= created_at"
            else if rv < updated then .error "revoked_at must be >= updated_at"
            else .ok ⟨token, userId, createdAt, updatedAt, revoked, some ra⟩
          | none => .error "invalid revoked_at timestamp"
    | _, _ => .error "invalid timestamp"

/-- `CalendarTokenRecord.mint`: `created_at or utc_now_rfc3339()` (falsy
empty string falls back to the current time, passed in as `nowTs`). -/
def mintRecord (token userId : String) (createdAt : Option String) (nowTs : String) :
    Except String CalendarTokenRecord :=
  let now := match createdAt with
    | none => nowTs
    | some s => if s = "" then nowTs else s
  mkCalendarTokenRecord token userId now now false none

/-- `CalendarTokenRecord.revoke`: returns a new record whose `updated_at`
and `revoked_at` are both the (possibly defaulted) revocation timestamp. -/
def revokeRecord (r : CalendarTokenRecord) (revokedAt : Option String) (nowTs : String) :
    Except String CalendarTokenRecord :=
  let ts := match revokedAt with
    | none => nowTs
    | some s => if s = "" then nowTs else s
  mkCalendarTokenRecord r.token r.userId r.createdAt ts true (some ts)

/-- The §3 record invariant: `revoked ⇔ revokedAt ≠ null`,
`updatedAt ≥ createdAt`, and `revokedAt ≥ updatedAt` when present
(timestamp comparison via their parsed epoch values). -/
def RecordInvariant (r : CalendarTokenRecord) : Prop :=
  (r.revoked = true ↔ r.revokedAt ≠ none) ∧
  (∃ c u, parseRfc3339Z r.createdAt = some c ∧ parseRfc3339Z r.updatedAt = some u ∧ c ≤ u) ∧
  (∀ s ∈ r.revokedAt, ∃ u v, parseRfc3339Z r.updatedAt = some u ∧
    parseRfc3339Z s = some v ∧ u ≤ v)

/-! ## C1 — FSRS scheduler (`study/fsrs.py`)

Python float arithmetic is idealized as exact `ℚ` arithmetic. `x ** -1.0`
is the reciprocal; `round(x, 6)` is round-half-to-even at six decimals;
`datetime` instants are `ℚ` epoch seconds and `format_rfc3339_utc`
(second precision, `replace(microsecond=0)`) is the floor to whole
seconds.
-/

/-- `_clamp`. -/
def clampQ (x lo hi : ℚ) : ℚ := max lo (min hi x)

/-- Python `round` to an integer: round-half-to-even. -/
def roundHalfEvenInt (x : ℚ) : Int :=
  if x - (⌊x⌋ : ℚ) < 1/2 then ⌊x⌋
  else if 1/2 < x - (⌊x⌋ : ℚ) then ⌊x⌋ + 1
  else if ⌊x⌋ % 2 = 0 then ⌊x⌋ else ⌊x⌋ + 1

/-- `_rounded`: Python `round(x, 6)`. -/
def pyRound6 (x : ℚ) : ℚ := (roundHalfEvenInt (x * 1000000) : ℚ) / 1000000

/-- `_retrievability` (`_MIN_STABILITY = 0.15 = 3/20`). -/
def retrievabilityQ (stability elapsedDays : ℚ) : ℚ :=
  (1 + elapsedDays / max stability (3/20))⁻¹

/-- `_FIRST_INTERVAL_DAYS` (defined on ratings 1..4). -/
def firstIntervalDays (rating : Int) : ℚ :=
  if rating = 1 then 0 else if rating = 2 then 1/24 else if rating = 3 then 1 else 3

/-- `_FIRST_STABILITY`. -/
def firstStability (rating : Int) : ℚ :=
  if rating = 1 then 3/10 else if rating = 2 then 4/5 else if rating = 3 then 5/2 else 4

/-- `_FIRST_DIFFICULTY_DELTA`. -/
def firstDifficultyDelta (rating : Int) : ℚ :=
  if rating = 1 then 6/5 else if rating = 2 then 2/5 else if rating = 3 then -3/10 else -4/5

/-- `_REVIEW_DIFFICULTY_DELTA`. -/
def reviewDifficultyDelta (rating : Int) : ℚ :=
  if rating = 1 then 1 else if rating = 2 then 3/10 else if rating = 3 then -3/20 else -9/20

/-- `_REVIEW_INTERVAL_FACTOR` (defined on ratings 2..4). -/
def reviewIntervalFactor (rating : Int) : ℚ :=
  if rating = 2 then 4/5 else if rating = 3 then 1 else 27/20

/-- The API-style prior-state mapping passed to `schedule_review`, after
Python's `float()`/`int()` coercions of the numeric fields; timestamps stay
raw strings (parsed and validated by `from_mapping`). -/
structure FSRSPrior where
  dueAt : String
  stability : ℚ
  difficulty : ℚ
  reps : Int
  lapses : Int
  lastReviewedAt : String
deriving DecidableEq

/-- A validated `FSRSState`. `from_mapping` re-formats timestamps through
`format_rfc3339_utc ∘ parse_rfc3339_utc` (second precision), so the
timestamp fields live here as whole epoch seconds. -/
structure FSRSValid where
  dueAt : Int
  stability : ℚ
  difficulty : ℚ
  reps : Int
  lapses : Int
  lastReviewedAt : Int
deriving DecidableEq

/-- The output mapping of `schedule_review` (`FSRSState.to_mapping`):
second-precision timestamps, six-decimal-rounded stability/difficulty. -/
structure FSRSOut where
  dueAt : Int
  stability : ℚ
  difficulty : ℚ
  reps : Int
  lapses : Int
  lastReviewedAt : Int
deriving DecidableEq

/-- `FSRSState.from_mapping`. -/
def fsrsFromMapping (raw : FSRSPrior) : Except String FSRSValid :=
  match parseRfc3339Frac raw.dueAt, parseRfc3339Frac raw.lastReviewedAt with
  | some dq, some lq =>
    if raw.reps < 0 ∨ raw.lapses < 0 then .error "reps and lapses must be non-negative"
    else if raw.stability ≤ 0 then .error "stability must be positive"
    else .ok ⟨⌊dq⌋, raw.stability, clampQ raw.difficulty 1 10, raw.reps, raw.lapses, ⌊lq⌋⟩
  | _, _ => .error "timestamp must be RFC3339 UTC with trailing Z"

/-- `_first_review` composed with `to_mapping`. -/
def firstReview (now : ℚ) (rating : Int) : FSRSOut :=
  ⟨⌊now + firstIntervalDays rating * 86400⌋,
   pyRound6 (firstStability rating),
   pyRound6 (clampQ (5 + firstDifficultyDelta rating) 1 10),
   1, if rating = 1 then 1 else 0, ⌊now⌋⟩

/-- `schedule_review` with `now` already coerced to a UTC instant (the
`datetime` branch of `_coerce_utc_datetime`); `scheduleReviewStr` handles
the string branch. Intervals are in days, so `interval_days * 86400`
seconds are added to `now` (`timedelta(days=...)`). -/
def scheduleReview (prior : Option FSRSPrior) (rating : Int) (now : ℚ) :
    Except String FSRSOut :=
  if ¬(rating = 1 ∨ rating = 2 ∨ rating = 3 ∨ rating = 4) then
    .error "rating must be in range 1..4"
  else
    match prior with
    | none => .ok (firstReview now rating)
    | some raw =>
      match fsrsFromMapping raw with
      | .error e => .error e
      | .ok current =>
        let elapsedDays := max 0 ((now - (current.lastReviewedAt : ℚ)) / 86400)
        let retentionGap := max 0 (1 - retrievabilityQ current.stability elapsedDays)
        if rating = 1 then
          let ns := max (3/20) (current.stability * (11/20))
          let nd := clampQ (current.difficulty + reviewDifficultyDelta rating) 1 10
          .ok ⟨⌊now + (1/6 : ℚ) * 86400⌋, pyRound6 ns, pyRound6 nd,
            current.reps + 1, current.lapses + 1, ⌊now⌋⟩
        else
          let gain := 1 + (1/4 + (2/25) * (rating : ℚ)) * (1 + retentionGap) *
            ((11 - current.difficulty) / 10)
          let ns := max (3/20) (current.stability * gain)
          let nd := clampQ (current.difficulty +
            reviewDifficultyDelta rating * (1 + retentionGap * (1/2))) 1 10
          .ok ⟨⌊now + ns * reviewIntervalFactor rating * 86400⌋, pyRound6 ns, pyRound6 nd,
            current.reps + 1, current.lapses, ⌊now⌋⟩

/-- `schedule_review` with a string `now` (the string branch of
`_coerce_utc_datetime`: strict RFC3339 UTC parse, `ValueError` on
failure). -/
def scheduleReviewStr (prior : Option FSRSPrior) (rating : Int) (now : String) :
    Except String FSRSOut :=
  match parseRfc3339Frac now with
  | some q => scheduleReview prior rating q
  | none => .error "timestamp must be RFC3339 UTC with trailing Z"

/-- The baseline review count of a prior state (0 for a first review). -/
def priorReps : Option FSRSPrior → Int
  | none => 0
  | some p => p.reps

/-- The baseline lapse count of a prior state (0 for a first review). -/
def priorLapses : Option FSRSPrior → Int
  | none => 0
  | some p => p.lapses


/-! ## C2 — KB retrieval scoping (`backend/generation.py`)

`_s3_key_from_source`, `_source_in_course_scope` and the result-processing
part of `_retrieve_context` are embedded. Decoded object keys are viewed
as UTF-8 byte sequences: `urllib.parse.unquote` turns `%xx` escapes into
bytes and re-decodes; since the scope check only compares whole
`/`-separated components (and `/` never occurs inside a multi-byte UTF-8
sequence), comparing byte sequences is equivalent.
-/

/-- UTF-8 encoding of a Unicode scalar value. -/
def utf8EncodeCharNat (n : Nat) : List Nat :=
  if n < 128 then [n]
  else if n < 2048 then [192 + n / 64, 128 + n % 64]
  else if n < 65536 then [224 + n / 4096, 128 + (n / 64) % 64, 128 + n % 64]
  else [240 + n / 262144, 128 + (n / 4096) % 64, 128 + (n / 64) % 64, 128 + n % 64]

/-- UTF-8 bytes of a string. -/
def utf8Encode (s : String) : List Nat :=
  s.data.flatMap (fun c => utf8EncodeCharNat c.toNat)

/-- Value of a hexadecimal digit. -/
def hexDigitVal (c : Char) : Option Nat :=
  if '0' ≤ c && c ≤ '9' then some (c.toNat - 48)
  else if 'a' ≤ c && c ≤ 'f' then some (c.toNat - 87)
  else if 'A' ≤ c && c ≤ 'F' then some (c.toNat - 55)
  else none

/-- `urllib.parse.unquote` at the byte level: each `%xx` pair contributes
that byte, any other character contributes its UTF-8 bytes, and a `%` not
followed by two hex digits stays literal. -/
def percentDecodeBytes : List Char → List Nat
  | [] => []
  | '%' :: a :: b :: rest =>
    match hexDigitVal a, hexDigitVal b with
    | some x, some y => (16 * x + y) :: percentDecodeBytes rest
    | _, _ => utf8EncodeCharNat 37 ++ percentDecodeBytes (a :: b :: rest)
  | c :: rest => utf8EncodeCharNat c.toNat ++ percentDecodeBytes rest

/-- Scheme characters after the first (`[A-Za-z0-9+.-]`). -/
def schemeChar (c : Char) : Bool :=
  ('A' ≤ c && c ≤ 'Z') || ('a' ≤ c && c ≤ 'z') || ('0' ≤ c && c ≤ '9') ||
    c = '+' || c = '.' || c = '-'

/-- A scheme starts with a letter. -/
def schemeHeadChar (c : Char) : Bool := ('A' ≤ c && c ≤ 'Z') || ('a' ≤ c && c ≤ 'z')

/-- The scheme split of `urllib.parse.urlparse`: the lower-cased prefix
before the first `:` when it is a letter followed by scheme characters. -/
def splitScheme (s : String) : Option (String × String) :=
  let p := s.data.span (fun c => c != ':')
  match p.2 with
  | [] => none
  | _ :: tail =>
    match p.1 with
    | [] => none
    | h :: t =>
      if schemeHeadChar h && t.all schemeChar then
        some (pyLower (String.mk (h :: t)), String.mk tail)
      else none

/-- `_s3_key_from_source` at the byte level: for `s3://...` sources, the
object key is the URL path (after the netloc, stopping at `?` or `#`),
with leading slashes stripped and percent-escapes decoded; `none` for any
non-s3 source. -/
def s3KeyBytes (source : String) : Option (List Nat) :=
  match splitScheme source with
  | none => none
  | some (scheme, rest) =>
    if scheme = "s3" then
      let cs := rest.data
      let afterNetloc :=
        if cs.take 2 = ['/', '/'] then
          (cs.drop 2).dropWhile (fun c => c != '/' && c != '?' && c != '#')
        else cs
      let path := afterNetloc.takeWhile (fun c => c != '?' && c != '#')
      some (percentDecodeBytes (path.dropWhile (fun c => c == '/')))
    else none

/-- Split a byte sequence on `/` (byte 47), keeping empty components
(Python `key.split("/")`). -/
def splitSlashBytes : List Nat → List (List Nat)
  | [] => [[]]
  | b :: rest =>
    let r := splitSlashBytes rest
    if b = 47 then [] :: r
    else
      match r with
      | [] => [[b]]
      | h :: t => (b :: h) :: t

/-- `_source_in_course_scope`: after stripping an optional `uploads`
component, the key is in scope for `courseId` iff it is
`canvas-materials/{user}/{courseId}/...` or `{courseId}/...`. -/
def sourceInCourseScope (source courseId : String) : Bool :=
  match s3KeyBytes source with
  | none => false
  | some key =>
    if key = [] then false
    else
      let parts := (splitSlashBytes key).filter (fun p => p ≠ [])
      match parts with
      | [] => false
      | p0 :: rest0 =>
        let parts2 := if p0 = utf8Encode "uploads" then rest0 else p0 :: rest0
        match parts2 with
        | [] => false
        | q0 :: qrest =>
          if q0 = utf8Encode "canvas-materials" then
            decide (2 ≤ qrest.length) && decide (qrest.get? 1 = some (utf8Encode courseId))
          else decide (q0 = utf8Encode courseId)

/-- One raw KB retrieval result: `content.text` (when present as a string)
and the already-extracted source attribution (`_extract_source` of the
`location` field). -/
structure KBRow where
  contentText : Option String
  source : String
deriving DecidableEq

/-- A context entry `{text, source}` returned to generation. -/
structure CtxEntry where
  text : String
  source : String
deriving DecidableEq

/-- The valid entry of a row, when its text is a string that is non-empty
after stripping. -/
def rowEntry (row : KBRow) : Option CtxEntry :=
  match row.contentText with
  | some t => if pyStrip t = "" then none else some ⟨pyStrip t, row.source⟩
  | none => none

/-- The `_retrieve_context` result loop: the scoped and all-valid entry
lists, in result order. -/
def partitionRows (courseId : String) : List KBRow → (List CtxEntry × List CtxEntry)
  | [] => ([], [])
  | row :: rest =>
    let p := partitionRows courseId rest
    match rowEntry row with
    | none => p
    | some e =>
      if sourceInCourseScope e.source courseId then (e :: p.1, e :: p.2)
      else (p.1, e :: p.2)

/-- `_retrieve_context` after a successful KB response: the first `k`
in-scope entries; when scoping removed everything, the first `k` valid
entries; else empty. -/
def retrieveContext (rows : List KBRow) (courseId : String) (k : Nat) : List CtxEntry :=
  let p := partitionRows courseId rows
  (if p.1 ≠ [] then p.1 else if p.2 ≠ [] then p.2 else []).take k


/-! ## C3 — finalize's KB ingestion client token (`backend/ingest_workflow.py`)

`finalize_handler` computes
`clientToken = hashlib.sha256(f"{source_key}:{len(text)}".encode()).hexdigest()`.
SHA-256 (FIPS 180-4) is implemented below over byte lists, with 32-bit
words as `Nat` reduced mod `2^32`.
-/

/-- Reduce to a 32-bit word. -/
def w32 (n : Nat) : Nat := n % 4294967296

/-- Rotate a 32-bit word right by `r`. -/
def rotr32 (r x : Nat) : Nat := w32 ((x >>> r) ||| (x <<< (32 - r)))

/-- SHA-256 `σ0`. -/
def ssig0 (x : Nat) : Nat := rotr32 7 x ^^^ rotr32 18 x ^^^ (x >>> 3)

/-- SHA-256 `σ1`. -/
def ssig1 (x : Nat) : Nat := rotr32 17 x ^^^ rotr32 19 x ^^^ (x >>> 10)

/-- SHA-256 `Σ0`. -/
def bsig0 (x : Nat) : Nat := rotr32 2 x ^^^ rotr32 13 x ^^^ rotr32 22 x

/-- SHA-256 `Σ1`. -/
def bsig1 (x : Nat) : Nat := rotr32 6 x ^^^ rotr32 11 x ^^^ rotr32 25 x

/-- The SHA-256 round constants. -/
def sha256K : List Nat :=
  [1116352408, 1899447441, 3049323471, 3921009573, 961987163, 1508970993,
   2453635748, 2870763221, 3624381080, 310598401, 607225278, 1426881987,
   1925078388, 2162078206, 2614888103, 3248222580, 3835390401, 4022224774,
   264347078, 604807628, 770255983, 1249150122, 1555081692, 1996064986,
   2554220882, 2821834349, 2952996808, 3210313671, 3336571891, 3584528711,
   113926993, 338241895, 666307205, 773529912, 1294757372, 1396182291,
   1695183700, 1986661051, 2177026350, 2456956037, 2730485921, 2820302411,
   3259730800, 3345764771, 3516065817, 3600352804, 4094571909, 275423344,
   430227734, 506948616, 659060556, 883997877, 958139571, 1322822218,
   1537002063, 1747873779, 1955562222, 2024104815, 2227730452, 2361852424,
   2428436474, 2756734187, 3204031479, 3329325298]

/-- The SHA-256 initial hash value. -/
def sha256Init : List Nat :=
  [1779033703, 3144134277, 1013904242, 2773480762,
   1359893119, 2600822924, 528734635, 1541459225]

/-- Big-endian 64-bit encoding of a length (in bits). -/
def be64 (n : Nat) : List Nat :=
  (List.range 8).map (fun i => (n >>> ((7 - i) * 8)) % 256)

/-- SHA-256 message padding: `0x80`, zeros to 56 mod 64, 8 length bytes. -/
def sha256Pad (msg : List Nat) : List Nat :=
  msg ++ 128 :: List.replicate ((119 - msg.length % 64) % 64) 0 ++ be64 (8 * msg.length)

/-- Split into 64-byte blocks (fuel-driven so the kernel can evaluate it;
the fuel is an upper bound on the number of blocks). -/
def chunksAux : Nat → List Nat → List (List Nat)
  | 0, _ => []
  | _, [] => []
  | fuel + 1, l => l.take 64 :: chunksAux fuel (l.drop 64)

/-- 64-byte blocks of a (padded) byte list. -/
def chunks64 (l : List Nat) : List (List Nat) := chunksAux (l.length + 1) l

/-- Big-endian 32-bit words of a block. -/
def toWords : List Nat → List Nat
  | b1 :: b2 :: b3 :: b4 :: rest =>
    (((b1 * 256 + b2) * 256 + b3) * 256 + b4) :: toWords rest
  | _ => []

/-- Message-schedule extension: `acc` holds the schedule in reverse
(newest word first); each step prepends `σ1(w[t-2]) + w[t-7] + σ0(w[t-15])
+ w[t-16]`. -/
def scheduleAux : Nat → List Nat → List Nat
  | 0, acc => acc
  | fuel + 1, acc =>
    let wm2 := (acc.get? 1).getD 0
    let wm7 := (acc.get? 6).getD 0
    let wm15 := (acc.get? 14).getD 0
    let wm16 := (acc.get? 15).getD 0
    scheduleAux fuel (w32 (ssig1 wm2 + wm7 + ssig0 wm15 + wm16) :: acc)

/-- The 64-word message schedule of a block's 16 words. -/
def schedule (ws : List Nat) : List Nat := (scheduleAux 48 ws.reverse).reverse

/-- One SHA-256 round on the state `[a,b,c,d,e,f,g,h]` with `(Kt, Wt)`. -/
def sha256Round (st : List Nat) (kw : Nat × Nat) : List Nat :=
  match st with
  | [a, b, c, d, e, f, g, h] =>
    let ch := (e &&& f) ^^^ ((e ^^^ 4294967295) &&& g)
    let maj := (a &&& b) ^^^ (a &&& c) ^^^ (b &&& c)
    let t1 := w32 (h + bsig1 e + ch + kw.1 + kw.2)
    let t2 := w32 (bsig0 a + maj)
    [w32 (t1 + t2), a, b, c, w32 (d + t1), e, f, g]
  | other => other

/-- SHA-256 compression of one 64-byte block into the running hash. -/
def sha256Compress (h : List Nat) (block : List Nat) : List Nat :=
  let st := (sha256K.zip (schedule (toWords block))).foldl sha256Round h
  (h.zip st).map (fun p => w32 (p.1 + p.2))

/-- The eight 32-bit words of the SHA-256 digest of a byte list. -/
def sha256Words (msg : List Nat) : List Nat :=
  (chunks64 (sha256Pad msg)).foldl sha256Compress sha256Init

/-- The SHA-256 digest as a single natural number below `2^256`. -/
def sha256Num (msg : List Nat) : Nat :=
  (sha256Words msg).foldl (fun acc w => acc * 4294967296 + w) 0

/-- Lower-case hexadecimal digit. -/
def hexChar (n : Nat) : Char :=
  if n < 10 then Char.ofNat (48 + n) else Char.ofNat (87 + n)

/-- Fixed-width lower-case hexadecimal rendering. -/
def natToHexFixed (digits n : Nat) : String :=
  String.mk ((List.range digits).map (fun i => hexChar (n / 16 ^ (digits - 1 - i) % 16)))

/-- `hashlib.sha256(bytes).hexdigest()`. -/
def sha256Hex (msg : List Nat) : String := natToHexFixed 64 (sha256Num msg)

/-- `finalize_handler`'s KB ingestion client token:
`sha256(f"{source_key}:{text_length}".encode()).hexdigest()`. -/
def kbClientToken (sourceKey : String) (textLength : Nat) : String :=
  sha256Hex (utf8Encode (sourceKey ++ ":" ++ Nat.repr textLength))

/-- Decimal digit characters of `n`, most significant first (the reference
characterization of `Nat.repr` used in the injectivity proofs). -/
def decChars (n : Nat) : List Char :=
  if n < 10 then [Nat.digitChar n]
  else decChars (n / 10) ++ [Nat.digitChar (n % 10)]
decreasing_by exact Nat.div_lt_self (by omega) (by norm_num)

/-- Evaluate a digit string back to a number. -/
def evalDec (l : List Char) : Nat := l.foldl (fun a c => a * 10 + digitVal c) 0


/-! ## Stable sorting

Python `list.sort(key=...)` is a stable sort; it is modelled by insertion
sort with a total `≤`-comparator on keys (ties keep original order, which
is exactly stability).
-/

/-- Code-point lexicographic `≤` on character lists (the order Python uses
for `str` comparison, and the order of Lean's `String.le`), written as a
structurally computable Boolean. -/
def listLe : List Char → List Char → Bool
  | [], _ => true
  | _ :: _, [] => false
  | a :: as, b :: bs => if a = b then listLe as bs else decide (a < b)

/-- Python string `≤`. -/
def strLe (a b : String) : Bool := listLe a.data b.data

/-- Insert `a` before the first element `b` with `le a b`. -/
def insertSorted {α : Type} (le : α → α → Bool) (a : α) : List α → List α
  | [] => [a]
  | b :: rest => if le a b then a :: b :: rest else b :: insertSorted le a rest

/-- Stable sort by a total `≤`-comparator (models Python `list.sort`). -/
def pySortBy {α : Type} (le : α → α → Bool) : List α → List α
  | [] => []
  | a :: rest => insertSorted le a (pySortBy le rest)

/-! ## C6 — Canvas assignment classification (`backend/canvas_client.py`)

`_EXAM_PATTERN = re.compile(r"\b(midterm|final|exam)\b", re.IGNORECASE)`,
`_QUIZ_PATTERN = re.compile(r"\bquiz\b", re.IGNORECASE)`,
`_assignment_item_type` and the row pipeline of `fetch_course_assignments`
are embedded. `_to_rfc3339_utc` re-renders the due date; the embedding
carries the due string through unchanged (the theorems never depend on its
shape, and for already-normalized RFC3339-Z inputs the Python conversion
is the identity).
-/

/-- A regex word character (`\w`) on the ASCII text the titles use. -/
def isWordChar (c : Char) : Bool :=
  ('A' ≤ c && c ≤ 'Z') || ('a' ≤ c && c ≤ 'z') || ('0' ≤ c && c ≤ '9') || c = '_'

/-- Does `pat` occur at the head of `cs`? -/
def listStartsWith : List Char → List Char → Bool
  | [], _ => true
  | _ :: _, [] => false
  | p :: ps, c :: cs => p = c && listStartsWith ps cs

/-- After a match of `w` at the head of `cs`, the next character (if any)
must not be a word character. -/
def boundaryAfter (w cs : List Char) : Bool :=
  match cs.drop w.length with
  | [] => true
  | d :: _ => !isWordChar d

/-- Scan for an occurrence of `w` with word boundaries on both sides;
`prev` is the character before the current position. -/
def wordSearchAux (w : List Char) : Option Char → List Char → Bool
  | _, [] => false
  | prev, c :: cs =>
    ((match prev with | none => true | some p => !isWordChar p) &&
      listStartsWith w (c :: cs) && boundaryAfter w (c :: cs)) ||
    wordSearchAux w (some c) cs

/-- `re.search(r"\b<w>\b", text) is not None`, for a pattern word made of
word characters. -/
def reSearchWord (w text : String) : Bool := wordSearchAux w.data none text.data

/-- `_QUIZ_PATTERN.search(title)` (case-insensitive via lowering). -/
def quizMatch (title : String) : Bool := reSearchWord "quiz" (pyLower title)

/-- `_EXAM_PATTERN.search(title)` (case-insensitive via lowering). -/
def examMatch (title : String) : Bool :=
  reSearchWord "midterm" (pyLower title) || reSearchWord "final" (pyLower title) ||
    reSearchWord "exam" (pyLower title)

/-- `_assignment_item_type`; `quizId` models `assignment.get("quiz_id")`
(`none` for Python `None`/missing), `name` the `str()` of the title. -/
def assignmentItemType (quizId : Option Nat) (name : String) : String :=
  if quizId.isSome || quizMatch name then "quiz"
  else if examMatch name then "exam"
  else "assignment"

/-- The claim's classification rule read literally: the quoted regexes
applied as written (case-sensitive), quiz first, then exam, else
assignment. -/
def claimItemType (quizId : Option Nat) (name : String) : String :=
  if quizId.isSome || reSearchWord "quiz" name then "quiz"
  else if reSearchWord "midterm" name || reSearchWord "final" name ||
      reSearchWord "exam" name then "exam"
  else "assignment"

/-- The claim's rule amended to match case-insensitively. -/
def claimItemTypeCI (quizId : Option Nat) (name : String) : String :=
  if quizId.isSome || reSearchWord "quiz" (pyLower name) then "quiz"
  else if reSearchWord "midterm" (pyLower name) || reSearchWord "final" (pyLower name) ||
      reSearchWord "exam" (pyLower name) then "exam"
  else "assignment"

/-- One raw Canvas assignment row, after JSON decoding: `published` is the
`is True` test, `rowId` the `str()` of a present id, `points` a valid
non-bool numeric `points_possible`. -/
structure CanvasAssignmentRow where
  published : Bool
  dueAt : Option String
  rowId : Option String
  name : Option String
  points : Option ℚ
  quizId : Option Nat
deriving DecidableEq

/-- An item in the contract shape emitted by `fetch_course_assignments`. -/
structure CanvasItemOut where
  id : String
  courseId : String
  title : String
  itemType : String
  dueAt : String
  pointsPossible : ℚ
deriving DecidableEq

/-- The per-row filter/map step of `fetch_course_assignments`. -/
def rowItem (courseId : String) (row : CanvasAssignmentRow) : Option CanvasItemOut :=
  if row.published then
    match row.dueAt with
    | some d =>
      if pyStrip d ≠ "" then
        match row.rowId, row.name with
        | some i, some t =>
          if pyStrip t ≠ "" then
            some ⟨i, courseId, pyStrip t, assignmentItemType row.quizId t, d,
              match row.points with
              | some p => if p < 0 then 0 else p
              | none => 0⟩
          else none
        | _, _ => none
      else none
    | none => none
  else none

/-- `fetch_course_assignments` on decoded rows: filter/map then sort by the
due string. -/
def fetchCourseAssignments (courseId : String) (rows : List CanvasAssignmentRow) :
    List CanvasItemOut :=
  pySortBy (fun a b => strLe a.dueAt b.dueAt) (rows.filterMap (rowItem courseId))


/-! ## C4 — `/study/today` selection (`backend/runtime.py`)

`_runtime_study_today`, `_compute_topic_mastery`, `_resolve_exam_due_at`,
`_is_due_timestamp` and `_safe_timestamp_for_sort` are embedded. Card due
timestamps are carried pre-parsed (`Option Int` epoch seconds; `none`
models a missing or unparseable value, which `_is_due_timestamp` treats as
due and `_safe_timestamp_for_sort` sorts last via its year-9999 fallback).
-/

/-- A runtime card as loaded by `_list_runtime_cards_for_course`:
normalized string fields, the parsed due timestamp, and the stability of a
present `fsrsState` dict (`_safe_float` coercion applied; a missing dict is
`none`). -/
structure StudyCard where
  id : String
  courseId : String
  topicId : String
  prompt : String
  answer : String
  dueAt : Option Int
  fsrsStability : Option ℚ
deriving DecidableEq

/-- `_safe_timestamp_for_sort`: unparseable values sort as
9999-12-31T23:59:59+00:00. -/
def tsSortKey (d : Option Int) : Int := d.getD 253402300799

/-- `_is_due_timestamp` (parse failures count as due). -/
def isDueCard (now : Int) (c : StudyCard) : Bool :=
  match c.dueAt with
  | none => true
  | some t => decide (t ≤ now)

/-- The `(dueAt, id)` sort of `_list_runtime_cards_for_course` and of the
due-card list. -/
def cardLe (a b : StudyCard) : Bool :=
  decide (tsSortKey a.dueAt < tsSortKey b.dueAt) ||
    (decide (tsSortKey a.dueAt = tsSortKey b.dueAt) && strLe a.id b.id)

/-- `clamp(stability / 10, 0, 1)`; a missing `fsrsState` scores 0. -/
def masteryScore (c : StudyCard) : ℚ :=
  match c.fsrsStability with
  | none => 0
  | some s => min 1 (max 0 (s / 10))

/-- The cards of one topic, in list order. -/
def topicCards (cards : List StudyCard) (topic : String) : List StudyCard :=
  cards.filter (fun c => decide (c.topicId = topic))

/-- `_compute_topic_mastery` for one topic: `sum / max(len, 1)`. -/
def topicMastery (cards : List StudyCard) (topic : String) : ℚ :=
  ((topicCards cards topic).map masteryScore).sum /
    ((max (topicCards cards topic).length 1 : Nat) : ℚ)

/-- `mastery_by_topic.get(topic, 1.0)`. -/
def masteryLookup (cards : List StudyCard) (topic : String) : ℚ :=
  if topicCards cards topic = [] then 1 else topicMastery cards topic

/-- Membership in `low_mastery_topics` (threshold 0.5). -/
def lowMasteryTopic (cards : List StudyCard) (topic : String) : Bool :=
  !(topicCards cards topic).isEmpty && decide (topicMastery cards topic < 1/2)

/-- The booster sort key `(topicMastery, dueAt, id)`. -/
def boosterLe (cards : List StudyCard) (a b : StudyCard) : Bool :=
  decide (masteryLookup cards a.topicId < masteryLookup cards b.topicId) ||
    (decide (masteryLookup cards a.topicId = masteryLookup cards b.topicId) && cardLe a b)

/-- A Canvas item as consumed by `_resolve_exam_due_at`. -/
structure ExamItem where
  id : String
  itemType : String
  dueAt : Option Int
deriving DecidableEq

/-- `_resolve_exam_due_at`: the given exam's due date, else the nearest
upcoming exam due date. -/
def resolveExamDueAt (items : List ExamItem) (examId : Option String) (now : Int) :
    Option Int :=
  let examRows := items.filterMap (fun it =>
    if pyLower it.itemType ≠ "exam" then none
    else
      match it.dueAt with
      | some d => if pyStrip it.id ≠ "" then some (d, pyStrip it.id) else none
      | none => none)
  match examId with
  | some eid => (examRows.find? (fun r => decide (r.2 = eid))).map (fun r => r.1)
  | none =>
    match pySortBy (fun a b => decide (a.1 < b.1) || (decide (a.1 = b.1) && strLe a.2 b.2))
        (examRows.filter (fun r => decide (now ≤ r.1))) with
    | [] => none
    | r :: _ => some r.1

/-- The projected response shape of a selected card. -/
structure CardOut where
  id : String
  courseId : String
  topicId : String
  prompt : String
  answer : String
deriving DecidableEq

/-- Field projection of `_runtime_study_today`'s response rows. -/
def projectCard (c : StudyCard) : CardOut := ⟨c.id, c.courseId, c.topicId, c.prompt, c.answer⟩

/-- The `(dueAt, id)`-sorted card list (`_list_runtime_cards_for_course`). -/
def sortCards (cards : List StudyCard) : List StudyCard := pySortBy cardLe cards

/-- The due cards, re-sorted by `(dueAt, id)` as the handler does. -/
def dueCards (cards : List StudyCard) (now : Int) : List StudyCard :=
  pySortBy cardLe ((sortCards cards).filter (isDueCard now))

/-- The boosters: cards whose id is not among the due ids and whose topic
has mastery below 0.5, sorted by `(topicMastery, dueAt, id)`. -/
def boosterCards (cards : List StudyCard) (now : Int) : List StudyCard :=
  pySortBy (boosterLe (sortCards cards))
    ((sortCards cards).filter (fun c =>
      !((dueCards cards now).any (fun dc => dc.id == c.id)) &&
        lowMasteryTopic (sortCards cards) c.topicId))

/-- `_runtime_study_today` on loaded cards: due cards first; near-exam
(0 ≤ dueAt − now ≤ 7 days = 604800 s) appends boosters; an empty selection
falls back to the first 5 cards; the final list is truncated to 50 and
projected. -/
def studyToday (cards : List StudyCard) (items : List ExamItem)
    (examId : Option String) (now : Int) : List CardOut :=
  if (sortCards cards).isEmpty then []
  else
    let nearExam :=
      match resolveExamDueAt items examId now with
      | some d => decide (now ≤ d) && decide (d ≤ now + 604800)
      | none => false
    let chosen := if nearExam then dueCards cards now ++ boosterCards cards now
      else dueCards cards now
    let chosen2 := if chosen.isEmpty then (sortCards cards).take 5 else chosen
    (chosen2.take 50).map projectCard


/-! ## C9 — `/study/review` endpoint (`backend/runtime.py`)

`_validate_review_payload`, `_update_card_review_state`,
`_fsrs_rating_from_review_rating` and the `POST /study/review` route body
are embedded. The cards table is an association list keyed by `cardId`;
`None` from `_cards_table()` (no `CARDS_TABLE` configured) is the `none`
table. Stored float fields round-trip exactly through `str`/`float`, so
the stored `fsrsState` is kept numeric.
-/

/-- Civil date from epoch day (the standard inverse of `daysFromCivil`). -/
def civilFromDays (z0 : Int) : Int × Int × Int :=
  let z := z0 + 719468
  let era := (if 0 ≤ z then z else z - 146096) / 146097
  let doe := z - era * 146097
  let yoe := (doe - doe / 1460 + doe / 36524 - doe / 146096) / 365
  let y := yoe + era * 400
  let doy := doe - (365 * yoe + yoe / 4 - yoe / 100)
  let mp := (5 * doy + 2) / 153
  let d := doy - (153 * mp + 2) / 5 + 1
  let m := mp + (if mp < 10 then 3 else -9)
  (y + (if m ≤ 2 then 1 else 0), m, d)

/-- Zero-padded decimal rendering of a non-negative value. -/
def padNum (width : Nat) (n : Int) : String :=
  String.mk (List.replicate (width - (Nat.repr n.toNat).length) '0') ++ Nat.repr n.toNat

/-- Render epoch seconds as `YYYY-MM-DDTHH:MM:SSZ` (the shape of
`_utc_now_rfc3339` and of the formatted FSRS timestamps). -/
def formatRfc3339OfInt (t : Int) : String :=
  match civilFromDays (Int.ediv t 86400) with
  | (y, m, d) =>
    let s := Int.emod t 86400
    padNum 4 y ++ "-" ++ padNum 2 m ++ "-" ++ padNum 2 d ++ "T" ++
      padNum 2 (s / 3600) ++ ":" ++ padNum 2 ((s % 3600) / 60) ++ ":" ++
      padNum 2 (s % 60) ++ "Z"

/-- A sound subset of `datetime.fromisoformat(s.replace("Z", "+00:00"))`:
accepts `YYYY-MM-DDTHH:MM:SS` optionally followed by `Z` or `+00:00`.
Everything accepted here is accepted by Python, so using it as the
validation model only narrows the set of payloads quantified over. -/
def pyIsoParseOk (s : String) : Bool :=
  match s.data with
  | y1 :: y2 :: y3 :: y4 :: '-' :: m1 :: m2 :: '-' :: d1 :: d2 :: 'T' ::
      h1 :: h2 :: ':' :: n1 :: n2 :: ':' :: s1 :: s2 :: rest =>
    (parseCivil y1 y2 y3 y4 m1 m2 d1 d2 h1 h2 n1 n2 s1 s2).isSome &&
      decide (rest = [] ∨ rest = ['Z'] ∨ rest = ['+', '0', '0', ':', '0', '0'])
  | _ => false

/-- A syntactically well-typed `/study/review` payload. -/
structure ReviewPayload where
  cardId : String
  courseId : String
  rating : Int
  reviewedAt : String
deriving DecidableEq

/-- `_validate_review_payload`. -/
def validateReviewPayload (p : ReviewPayload) : Option String :=
  if pyStrip p.cardId = "" then some "cardId is required"
  else if pyStrip p.courseId = "" then some "courseId is required"
  else if pyStrip p.reviewedAt = "" then some "reviewedAt is required"
  else if ¬(1 ≤ p.rating ∧ p.rating ≤ 5) then
    some "rating must be an integer between 1 and 5"
  else if ¬ pyIsoParseOk p.reviewedAt then some "reviewedAt must be an RFC3339 timestamp"
  else none

/-- A stored card row (the fields `_update_card_review_state` touches). -/
structure CardRow where
  courseId : String
  fsrsState : Option FSRSPrior
  dueAt : String
  updatedAt : String
  lastReviewedAt : String
  reviewCount : Int
deriving DecidableEq

/-- DynamoDB `get_item` on the association-list table. -/
def tableGet (t : List (String × CardRow)) (k : String) : Option CardRow :=
  (t.find? (fun e => decide (e.1 = k))).map (fun e => e.2)

/-- DynamoDB `put_item`: replace the row under `k`, or append it. -/
def tablePut (t : List (String × CardRow)) (k : String) (row : CardRow) :
    List (String × CardRow) :=
  if t.any (fun e => decide (e.1 = k)) then
    t.map (fun e => if e.1 = k then (k, row) else e)
  else t ++ [(k, row)]

/-- `_fsrs_rating_from_review_rating`: clamp the 1..5 review rating onto
the FSRS 1..4 scale (5 maps to 4). -/
def fsrsRatingFromReviewRating (rating : Int) : Int :=
  if rating ≤ 1 then 1 else if rating = 2 then 2 else if rating = 3 then 3 else 4

/-- `_update_card_review_state`: no-op when the card is missing or belongs
to a different course; otherwise apply `schedule_review` and write the row
back (an uncaught `ValueError` from `schedule_review` is the `error`
branch). `nowWall` is the `_utc_now_rfc3339()` wall-clock read. -/
def updateCardReviewState (table : List (String × CardRow)) (p : ReviewPayload)
    (reviewedAt : String) (nowWall : Int) : Except String (List (String × CardRow)) :=
  match tableGet table (pyStrip p.cardId) with
  | none => .ok table
  | some row =>
    if row.courseId ≠ p.courseId then .ok table
    else
      match scheduleReviewStr row.fsrsState (fsrsRatingFromReviewRating p.rating) reviewedAt with
      | .error e => .error e
      | .ok upd =>
        .ok (tablePut table (pyStrip p.cardId)
          { courseId := row.courseId
            fsrsState := some ⟨formatRfc3339OfInt upd.dueAt, upd.stability, upd.difficulty,
              upd.reps, upd.lapses, formatRfc3339OfInt upd.lastReviewedAt⟩
            dueAt := formatRfc3339OfInt upd.dueAt
            updatedAt := formatRfc3339OfInt nowWall
            lastReviewedAt := formatRfc3339OfInt upd.lastReviewedAt
            reviewCount := row.reviewCount + 1 })

/-- The HTTP response of the review route (status plus the JSON body's
`accepted`/`error` fields). -/
structure ReviewResp where
  status : Nat
  accepted : Option Bool
  error : Option String
deriving DecidableEq

/-- The `POST /study/review` route body after JSON body parsing:
validation failure is a 400; otherwise the card state is updated (when a
cards table is configured and `reviewedAt` strips non-empty) and the
response is `200 {"accepted": true}`. -/
def postStudyReview (table : Option (List (String × CardRow))) (p : ReviewPayload)
    (nowWall : Int) : Except String (ReviewResp × Option (List (String × CardRow))) :=
  match validateReviewPayload p with
  | some e => .ok (⟨400, some false, some e⟩, table)
  | none =>
    match table with
    | none => .ok (⟨200, some true, none⟩, none)
    | some t =>
      if pyStrip p.reviewedAt ≠ "" then
        match updateCardReviewState t p (pyStrip p.reviewedAt) nowWall with
        | .error e => .error e
        | .ok t2 => .ok (⟨200, some true, none⟩, some t2)
      else .ok (⟨200, some true, none⟩, some t)

/-! ## C10 — HTTP dispatch fall-through (`backend/runtime.py`)

The route cascade of `lambda_handler` (after the scheduled-event check),
with each regex `re.fullmatch` modelled through `path.split("/")`, and the
tail `_require_demo_mode()` / 404. Handlers are opaque: the dispatch
result records which handler a matched route invokes.
-/

/-- Split a string on `/`, keeping empty components. -/
def splitCharList (sep : Char) : List Char → List (List Char)
  | [] => [[]]
  | c :: rest =>
    let r := splitCharList sep rest
    if c = sep then [] :: r
    else
      match r with
      | [] => [[c]]
      | h :: t => (c :: h) :: t

/-- `path.split("/")`. -/
def splitSlash (s : String) : List String := (splitCharList '/' s.data).map String.mk

/-- `re.fullmatch(r"/courses/([^/]+)/materials", path)`. -/
def materialsPathId (path : String) : Option String :=
  match splitSlash path with
  | ["", "courses", cid, "materials"] => if cid ≠ "" then some cid else none
  | _ => none

/-- `re.fullmatch(r"/docs/ingest/([^/]+)", path)`. -/
def docsIngestStatusId (path : String) : Option String :=
  match splitSlash path with
  | ["", "docs", "ingest", j] => if j ≠ "" then some j else none
  | _ => none

/-- `pathParameters.get(k, "")` restricted to string values. -/
def paramGet (params : List (String × String)) (k : String) : String :=
  (((params.find? (fun e => decide (e.1 = k))).map (fun e => e.2)).getD "")

/-- Strip a trailing `.ics` when present. -/
def stripIcsSuffix (s : String) : String :=
  if listStartsWith ['s', 'c', 'i', '.'] s.data.reverse then
    String.mk (s.data.take (s.data.length - 4))
  else s

/-- `_extract_course_id_from_path`: the `courseId` path parameter when
present, else the `/courses/{id}/items` pattern. -/
def extractCourseIdFromPath (path : String) (params : List (String × String)) :
    Option String :=
  let fromParams := pyStrip (paramGet params "courseId")
  if fromParams ≠ "" then some fromParams
  else
    match splitSlash path with
    | ["", "courses", cid, "items"] => if cid ≠ "" then some cid else none
    | _ => none

/-- `_extract_calendar_token`: the `token`/`token_ics` path parameters
(with `.ics` stripped), else the `/calendar/{token}.ics` pattern. -/
def extractCalendarToken (path : String) (params : List (String × String)) :
    Option String :=
  let t1 := pyStrip (paramGet params "token")
  if t1 ≠ "" then some (stripIcsSuffix t1)
  else
    let t2 := pyStrip (paramGet params "token_ics")
    if t2 ≠ "" then some (stripIcsSuffix t2)
    else
      match splitSlash path with
      | ["", "calendar", seg] =>
        if listStartsWith ['s', 'c', 'i', '.'] seg.data.reverse ∧ 4 < seg.data.length then
          some (String.mk (seg.data.take (seg.data.length - 4)))
        else none
      | _ => none

/-- The handler a matched route invokes. -/
inductive RouteTarget where
  | chat
  | uploadsPost
  | health
  | coursesList
  | courseMaterials (courseId : String)
  | courseItems (courseId : String)
  | calendarTokenCreate
  | docsIngestStart
  | docsIngestStatus (jobId : String)
  | canvasConnect
  | canvasSync
  | genFlashcards
  | genFlashcardsFromMaterials
  | genPracticeExam
  | calendarFeed (token : String)
  | studyTodayRoute
  | studyReviewRoute
  | studyMasteryRoute
deriving DecidableEq

/-- A dispatch-layer response (status plus the body's `error` field). -/
structure DispatchResp where
  status : Nat
  error : String
deriving DecidableEq

/-- Either a handler invocation or a direct response. -/
inductive DispatchResult where
  | handled (t : RouteTarget)
  | response (r : DispatchResp)
deriving DecidableEq

/-- The `lambda_handler` route cascade in source order; the tail runs
`_require_demo_mode()` (503 with an error body when demo mode is off) and
then returns `404 {"error": "not found"}`. -/
def lambdaDispatch (method path : String) (params : List (String × String))
    (demoMode : Bool) : DispatchResult :=
  if method = "POST" ∧ path = "/chat" then .handled .chat
  else if method = "POST" ∧ path = "/uploads" then .handled .uploadsPost
  else if method = "GET" ∧ path = "/health" then .handled .health
  else if method = "GET" ∧ path = "/courses" then .handled .coursesList
  else
    match (if method = "GET" then materialsPathId path else none) with
    | some cid => .handled (.courseMaterials cid)
    | none =>
      match (if method = "GET" then extractCourseIdFromPath path params else none) with
      | some cid => .handled (.courseItems cid)
      | none =>
        if method = "POST" ∧ path = "/calendar/token" then .handled .calendarTokenCreate
        else if method = "POST" ∧ path = "/docs/ingest" then .handled .docsIngestStart
        else
          match (if method = "GET" then docsIngestStatusId path else none) with
          | some j => .handled (.docsIngestStatus j)
          | none =>
            if method = "POST" ∧ path = "/canvas/connect" then .handled .canvasConnect
            else if method = "POST" ∧ path = "/canvas/sync" then .handled .canvasSync
            else if method = "POST" ∧ path = "/generate/flashcards" then
              .handled .genFlashcards
            else if method = "POST" ∧ path = "/generate/flashcards-from-materials" then
              .handled .genFlashcardsFromMaterials
            else if method = "POST" ∧ path = "/generate/practice-exam" then
              .handled .genPracticeExam
            else
              match (if method = "GET" then extractCalendarToken path params else none) with
              | some tok => .handled (.calendarFeed tok)
              | none =>
                if method = "GET" ∧ path = "/study/today" then .handled .studyTodayRoute
                else if method = "POST" ∧ path = "/study/review" then
                  .handled .studyReviewRoute
                else if method = "GET" ∧ path = "/study/mastery" then
                  .handled .studyMasteryRoute
                else if demoMode then .response ⟨404, "not found"⟩
                else .response ⟨503, "live mode not implemented; set DEMO_MODE=true"⟩

/-- "The method and normalized path match no route in the dispatch table":
the negation of every branch condition of the cascade (including the
path-parameter fallbacks the code consults). -/
def NoRouteMatches (method path : String) (params : List (String × String)) : Prop :=
  ¬(method = "POST" ∧ path = "/chat") ∧
  ¬(method = "POST" ∧ path = "/uploads") ∧
  ¬(method = "GET" ∧ path = "/health") ∧
  ¬(method = "GET" ∧ path = "/courses") ∧
  ¬(method = "GET" ∧ (materialsPathId path).isSome) ∧
  ¬(method = "GET" ∧ (extractCourseIdFromPath path params).isSome) ∧
  ¬(method = "POST" ∧ path = "/calendar/token") ∧
  ¬(method = "POST" ∧ path = "/docs/ingest") ∧
  ¬(method = "GET" ∧ (docsIngestStatusId path).isSome) ∧
  ¬(method = "POST" ∧ path = "/canvas/connect") ∧
  ¬(method = "POST" ∧ path = "/canvas/sync") ∧
  ¬(method = "POST" ∧ path = "/generate/flashcards") ∧
  ¬(method = "POST" ∧ path = "/generate/flashcards-from-materials") ∧
  ¬(method = "POST" ∧ path = "/generate/practice-exam") ∧
  ¬(method = "GET" ∧ (extractCalendarToken path params).isSome) ∧
  ¬(method = "GET" ∧ path = "/study/today") ∧
  ¬(method = "POST" ∧ path = "/study/review") ∧
  ¬(method = "GET" ∧ path = "/study/mastery")


/-! ## C5 — model-output JSON extraction (`backend/generation.py`)

`_invoke_model_json`'s content-block selection and JSON-recovery
strategies are embedded: (1) direct `json.loads`, (2) the fenced block of
`re.search(r"```(?:json)?\s*\n?(.*?)```", text, re.DOTALL)` stripped,
(3) the greedy `re.search(r"\{.*\}", text, re.DOTALL)` slice. The JSON
grammar is Python's (`json.loads`): strict escapes, no trailing commas,
and the `NaN`/`Infinity`/`-Infinity` extensions. Fuel-driven recursive
descent; the fuel (one more than the input length) never runs out because
every step consumes input. `\uXXXX` escapes in the surrogate range are
mapped to U+FFFD (Lean `Char` cannot hold lone surrogates; no theorem
depends on them).
-/

/-- A decoded JSON value. -/
inductive JVal where
  | jnull
  | jbool (b : Bool)
  | jnum (q : ℚ)
  | jnan
  | jinf (neg : Bool)
  | jstr (s : String)
  | jarr (elems : List JVal)
  | jobj (fields : List (String × JVal))

/-- JSON whitespace (`json.decoder.WHITESPACE`). -/
def jsonWs (c : Char) : Bool := c = ' ' || c = '\t' || c = '\n' || c = '\r'

/-- Skip JSON whitespace. -/
def skipJsonWs (cs : List Char) : List Char := cs.dropWhile jsonWs

/-- Four hex digits of a `\uXXXX` escape. -/
def parseHex4 : List Char → Option (Nat × List Char)
  | a :: b :: c :: d :: rest =>
    match hexDigitVal a, hexDigitVal b, hexDigitVal c, hexDigitVal d with
    | some x1, some x2, some x3, some x4 => some (((x1 * 16 + x2) * 16 + x3) * 16 + x4, rest)
    | _, _, _, _ => none
  | _ => none

/-- The body of a JSON string after the opening quote: content characters
and the remainder after the closing quote. Strict mode: raw control
characters and unknown escapes fail. -/
def parseJString : Nat → List Char → Option (List Char × List Char)
  | 0, _ => none
  | _, [] => none
  | fuel + 1, c :: rest =>
    if c = '"' then some ([], rest)
    else if c = '\\' then
      match rest with
      | [] => none
      | e :: rest2 =>
        if e = 'u' then
          match parseHex4 rest2 with
          | some (n, rest3) =>
            let ch := if 0xD800 ≤ n ∧ n ≤ 0xDFFF then '�'
              else if h : n.isValidChar then Char.ofNatAux n h else '�'
            (parseJString fuel rest3).map (fun p => (ch :: p.1, p.2))
          | none => none
        else
          match (if e = '"' then some '"' else if e = '\\' then some '\\'
            else if e = '/' then some '/' else if e = 'b' then some '\x08'
            else if e = 'f' then some '\x0c' else if e = 'n' then some '\n'
            else if e = 'r' then some '\r' else if e = 't' then some '\t'
            else none) with
          | some ch => (parseJString fuel rest2).map (fun p => (ch :: p.1, p.2))
          | none => none
    else if c.toNat < 32 then none
    else (parseJString fuel rest).map (fun p => (c :: p.1, p.2))

/-- Value of a non-empty digit run, with the run length and remainder. -/
def parseDigitRun (cs : List Char) : Option (Nat × Nat × List Char) :=
  let ds := cs.takeWhile isDigitCh
  if ds.length = 0 then none
  else some (ds.foldl (fun a c => a * 10 + digitVal c) 0, ds.length, cs.drop ds.length)

/-- Python's JSON number regex
`(-?(?:0|[1-9]\d*))(\.\d+)?([eE][-+]?\d+)?` evaluated to an exact
rational. -/
def parseJNumber (cs : List Char) : Option (ℚ × List Char) :=
  let (neg, cs1) := match cs with
    | '-' :: r => (true, r)
    | _ => (false, cs)
  let intPart : Option (Nat × List Char) := match cs1 with
    | '0' :: r => some (0, r)
    | _ => (parseDigitRun cs1).map (fun p => (p.1, p.2.2))
  match intPart with
  | none => none
  | some (iv, cs2) =>
    let (mant, fracLen, cs3) : Nat × Nat × List Char := match cs2 with
      | '.' :: r =>
        match parseDigitRun r with
        | some (fv, fl, r2) => (iv * 10 ^ fl + fv, fl, r2)
        | none => (iv, 0, cs2)
      | _ => (iv, 0, cs2)
    let (expVal, cs4) : Int × List Char := match cs3 with
      | 'e' :: '+' :: r | 'E' :: '+' :: r =>
        match parseDigitRun r with
        | some (ev, _, r2) => ((ev : Int), r2)
        | none => (0, cs3)
      | 'e' :: '-' :: r | 'E' :: '-' :: r =>
        match parseDigitRun r with
        | some (ev, _, r2) => (-(ev : Int), r2)
        | none => (0, cs3)
      | 'e' :: r | 'E' :: r =>
        match parseDigitRun r with
        | some (ev, _, r2) => ((ev : Int), r2)
        | none => (0, cs3)
      | _ => (0, cs3)
    let num : Int := (if neg then -(mant : Int) else (mant : Int)) * 10 ^ expVal.toNat
    let den : Nat := 10 ^ (fracLen + (-expVal).toNat)
    some (Rat.divInt num (den : Int), cs4)

mutual

/-- One JSON value (fuel-driven); `tol` additionally tolerates a trailing
comma before `]`/`}` (the claim's fourth strategy; Python's `json.loads`
is `tol = false`). -/
def parseJVal (tol : Bool) : Nat → List Char → Option (JVal × List Char)
  | 0, _ => none
  | fuel + 1, cs0 =>
    match skipJsonWs cs0 with
    | [] => none
    | c :: rest =>
      if c = 'n' then
        if listStartsWith ['u', 'l', 'l'] rest then some (.jnull, rest.drop 3) else none
      else if c = 't' then
        if listStartsWith ['r', 'u', 'e'] rest then some (.jbool true, rest.drop 3) else none
      else if c = 'f' then
        if listStartsWith ['a', 'l', 's', 'e'] rest then some (.jbool false, rest.drop 4)
        else none
      else if c = 'N' then
        if listStartsWith ['a', 'N'] rest then some (.jnan, rest.drop 2) else none
      else if c = 'I' then
        if listStartsWith ['n', 'f', 'i', 'n', 'i', 't', 'y'] rest then
          some (.jinf false, rest.drop 7)
        else none
      else if c = '-' then
        if listStartsWith ['I', 'n', 'f', 'i', 'n', 'i', 't', 'y'] rest then
          some (.jinf true, rest.drop 8)
        else (parseJNumber (c :: rest)).map (fun p => (.jnum p.1, p.2))
      else if c = '"' then
        (parseJString (rest.length + 1) rest).map (fun p => (.jstr (String.mk p.1), p.2))
      else if c = '[' then
        match skipJsonWs rest with
        | ']' :: rest2 => some (.jarr [], rest2)
        | _ => (parseJArrItems tol fuel rest).map (fun p => (.jarr p.1, p.2))
      else if c = '{' then
        match skipJsonWs rest with
        | '}' :: rest2 => some (.jobj [], rest2)
        | _ => (parseJObjItems tol fuel rest).map (fun p => (.jobj p.1, p.2))
      else if isDigitCh c then
        (parseJNumber (c :: rest)).map (fun p => (.jnum p.1, p.2))
      else none

/-- Comma-separated array items up to the closing `]`. -/
def parseJArrItems (tol : Bool) : Nat → List Char → Option (List JVal × List Char)
  | 0, _ => none
  | fuel + 1, cs =>
    match parseJVal tol fuel cs with
    | none => none
    | some (v, rest) =>
      match skipJsonWs rest with
      | ',' :: rest2 =>
        if tol then
          match skipJsonWs rest2 with
          | ']' :: rest3 => some ([v], rest3)
          | _ => (parseJArrItems tol fuel rest2).map (fun p => (v :: p.1, p.2))
        else (parseJArrItems tol fuel rest2).map (fun p => (v :: p.1, p.2))
      | ']' :: rest2 => some ([v], rest2)
      | _ => none

/-- Comma-separated `"key": value` members up to the closing `}`. -/
def parseJObjItems (tol : Bool) : Nat → List Char → Option (List (String × JVal) × List Char)
  | 0, _ => none
  | fuel + 1, cs =>
    match skipJsonWs cs with
    | '"' :: rest =>
      match parseJString (rest.length + 1) rest with
      | none => none
      | some (key, rest2) =>
        match skipJsonWs rest2 with
        | ':' :: rest3 =>
          match parseJVal tol fuel rest3 with
          | none => none
          | some (v, rest4) =>
            match skipJsonWs rest4 with
            | ',' :: rest5 =>
              if tol then
                match skipJsonWs rest5 with
                | '}' :: rest6 => some ([(String.mk key, v)], rest6)
                | _ => (parseJObjItems tol fuel rest5).map
                    (fun p => ((String.mk key, v) :: p.1, p.2))
              else (parseJObjItems tol fuel rest5).map
                  (fun p => ((String.mk key, v) :: p.1, p.2))
            | '}' :: rest5 => some ([(String.mk key, v)], rest5)
            | _ => none
        | _ => none
    | _ => none

end

/-- `json.loads` (with `tol = true`, the trailing-comma-tolerant variant
the claim describes). -/
def jsonLoads (tol : Bool) (s : String) : Option JVal :=
  match parseJVal tol (s.length + 1) s.data with
  | some (v, rest) => if skipJsonWs rest = [] then some v else none
  | none => none

/-- Remainder after the first <code>```</code>. -/
def findTripleTick : List Char → Option (List Char)
  | [] => none
  | '`' :: '`' :: '`' :: rest => some rest
  | _ :: rest => findTripleTick rest

/-- Content before the next <code>```</code>. -/
def takeUntilTriple : List Char → Option (List Char)
  | [] => none
  | '`' :: '`' :: '`' :: _ => some []
  | c :: rest => (takeUntilTriple rest).map (fun l => c :: l)

/-- Group 1 of `re.search(r"```(?:json)?\s*\n?(.*?)```", text, re.DOTALL)`:
after the first fence, an optional literal `json`, then greedy whitespace
(which also absorbs the optional newline), then the lazy body up to the
next fence. -/
def fencedBlock (t : String) : Option String :=
  match findTripleTick t.data with
  | none => none
  | some r =>
    let r1 := if listStartsWith ['j', 's', 'o', 'n'] r then r.drop 4 else r
    (takeUntilTriple (r1.dropWhile pyIsSpace)).map String.mk

/-- Group 0 of a greedy `re.search(r"<op>.*<cl>", text, re.DOTALL)`: the
slice from the first `op` to the last `cl` after it. -/
def greedySlice (op cl : Char) (t : String) : Option String :=
  match t.data.dropWhile (fun c => c != op) with
  | [] => none
  | x :: rest =>
    let r := (x :: rest).reverse.dropWhile (fun c => c != cl)
    if r = [] then none else some (String.mk r.reverse)

/-- The JSON-recovery chain of `_invoke_model_json` exactly as the code
runs it: direct parse, then the stripped fenced block, then the greedy
`{...}` slice. -/
def codeParseModelText (t : String) : Option JVal :=
  match jsonLoads false t with
  | some v => some v
  | none =>
    match (fencedBlock t).bind (fun b => jsonLoads false (pyStrip b)) with
    | some v => some v
    | none => (greedySlice '{' '}' t).bind (fun b => jsonLoads false b)

/-- The recovery chain exactly as the claim words it: (1) direct, (2)
fenced, (3) greedy `{...}` or `[...]` slice, (4) trailing-comma-tolerant
re-parse of the same candidates. -/
def claimParseModelText (t : String) : Option JVal :=
  match jsonLoads false t with
  | some v => some v
  | none =>
  match (fencedBlock t).bind (fun b => jsonLoads false (pyStrip b)) with
  | some v => some v
  | none =>
  match (greedySlice '{' '}' t).bind (fun b => jsonLoads false b) with
  | some v => some v
  | none =>
  match (greedySlice '[' ']' t).bind (fun b => jsonLoads false b) with
  | some v => some v
  | none =>
  match jsonLoads true t with
  | some v => some v
  | none =>
  match (fencedBlock t).bind (fun b => jsonLoads true (pyStrip b)) with
  | some v => some v
  | none =>
  match (greedySlice '{' '}' t).bind (fun b => jsonLoads true b) with
  | some v => some v
  | none => (greedySlice '[' ']' t).bind (fun b => jsonLoads true b)

/-- One block of the response `content` array (`type` and an optional
string `text`). -/
structure ContentBlock where
  btype : String
  btext : Option String
deriving DecidableEq

/-- Result of `_invoke_model_json` after a readable, non-guardrail
response: the parsed value or a `GenerationError` message. -/
inductive GenResult where
  | ok (v : JVal)
  | genError (msg : String)

/-- The text `_invoke_model_json` selects: the first `type = "text"`
block's `text`, falling back to the first block's `text`. -/
def resolvedText (chunks : List ContentBlock) : Option String :=
  match (match chunks.find? (fun c => decide (c.btype = "text")) with
    | some c => c.btext
    | none => none) with
  | some t => some t
  | none => chunks.head?.bind (fun c => c.btext)

/-- `_invoke_model_json` from the decoded `content` array onward. -/
def invokeModelJsonText (chunks : List ContentBlock) : GenResult :=
  if chunks.isEmpty then .genError "model returned empty response"
  else
    match resolvedText chunks with
    | none => .genError "model returned non-text response"
    | some t =>
      if pyStrip t = "" then .genError "model returned non-text response"
      else
        match codeParseModelText t with
        | some v => .ok v
        | none => .genError "model returned invalid JSON payload"

/-! # Theorems -/

lemma mem_sanitizeAux {c : Char} :
    ∀ (b : Bool) (l : List Char), c ∈ sanitizeAux b l → materialChar c = true := by
  intro b l
  induction l generalizing b with
  | nil => intro h; simp [sanitizeAux] at h
  | cons d rest ih =>
    intro h
    by_cases hd : materialChar d
    · simp only [sanitizeAux, hd, if_pos] at h
      rcases List.mem_cons.mp h with h | h
      · exact h ▸ hd
      · exact ih false h
    · simp only [sanitizeAux, hd, if_neg, Bool.false_eq_true, if_false] at h
      cases b with
      | true => exact ih true (by simpa using h)
      | false =>
        simp only [Bool.false_eq_true, if_false] at h
        rcases List.mem_cons.mp h with h | h
        · subst h; simp [materialChar]
        · exact ih true h

lemma mem_stripBothChars {c : Char} {p : Char → Bool} {l : List Char}
    (h : c ∈ stripBothChars p l) : c ∈ l := by
  unfold stripBothChars at h
  rw [List.mem_reverse] at h
  have h1 := (List.dropWhile_sublist p).mem h
  rw [List.mem_reverse] at h1
  exact (List.dropWhile_sublist p).mem h1

lemma safeMaterialFilename_chars {name : String} :
    ∀ ch ∈ (safeMaterialFilename name).data, materialChar ch = true := by
  intro ch hch
  simp only [safeMaterialFilename] at hch
  split at hch
  · fin_cases hch <;> decide
  · exact mem_sanitizeAux false _ (mem_stripBothChars hch)

/-- **C7 counterexample.** The claim says the safe name is *exactly* the
display name with disallowed runs replaced by `_` and nothing else changed.
For the display name `"a."` the code strips the trailing `.`, producing the
key `.../a`, while the claim's transformation leaves `"a."` intact. -/
theorem C7_material_key_counterexample :
    materialS3Key "u" "c" "f1" "a." ≠
      "uploads/canvas-materials/" ++ "u" ++ "/" ++ "c" ++ "/" ++ "f1" ++ "/" ++
        specSafeName "a." := by
  decide

/-- **C7 (amended).** The mirrored-material key equals
`uploads/canvas-materials/{userId}/{courseId}/{canvasFileId}/{safeName}`
where `safeName` is obtained from the display name by trimming surrounding
whitespace, replacing every run of characters outside `[A-Za-z0-9._-]` with
a single `_`, stripping leading and trailing `.`/`_` characters, and
substituting `"material"` when the result is empty; the safe name is always
non-empty and consists only of characters in `[A-Za-z0-9._-]`. -/
theorem C7_material_key_amended (userId courseId canvasFileId displayName : String) :
    materialS3Key userId courseId canvasFileId displayName =
      "uploads/canvas-materials/" ++ userId ++ "/" ++ courseId ++ "/" ++
        canvasFileId ++ "/" ++ safeMaterialFilename displayName ∧
    safeMaterialFilename displayName =
      (let t := String.mk (stripBothChars (fun c => c = '.' || c = '_')
          (specSafeName (pyStrip displayName)).data)
       if t = "" then "material" else t) ∧
    safeMaterialFilename displayName ≠ "" ∧
    (∀ ch ∈ (safeMaterialFilename displayName).data, materialChar ch = true) := by
  refine ⟨rfl, rfl, ?_, safeMaterialFilename_chars⟩
  simp only [safeMaterialFilename]
  split
  · decide
  · next h => exact h

lemma mk_ok_invariant {token userId createdAt updatedAt revoked revokedAt r}
    (h : mkCalendarTokenRecord token userId createdAt updatedAt revoked revokedAt = .ok r) :
    RecordInvariant r := by
  unfold mkCalendarTokenRecord at h
  split at h; · exact absurd h (by simp)
  split at h; · exact absurd h (by simp)
  split at h; · exact absurd h (by simp)
  split at h; · exact absurd h (by simp)
  split at h
  · exact absurd h (by simp)
  next hrevreq =>
  split at h
  · exact absurd h (by simp)
  next hrevforbid =>
  split at h; · exact absurd h (by simp)
  split at h
  case _ created updated hc hu =>
    split at h
    · exact absurd h (by simp)
    next hcu =>
      split at h
      · cases h
        refine ⟨by simp_all [falsyOptStr], ⟨created, updated, hc, hu, by omega⟩, by simp⟩
      next ra =>
        split at h
        case _ rv hrv =>
          split at h; · exact absurd h (by simp)
          next hrc =>
            split at h; · exact absurd h (by simp)
            next hru =>
              cases h
              refine ⟨by simp_all, ⟨created, updated, hc, hu, by omega⟩, ?_⟩
              intro s hs
              simp only [Option.mem_def, Option.some.injEq] at hs
              subst hs
              exact ⟨updated, rv, hu, hrv, by omega⟩
        · exact absurd h (by simp)
  · exact absurd h (by simp)

/-- **C8.** Every constructible `CalendarTokenRecord` satisfies the §3
invariant (`revoked ⇔ revokedAt ≠ null`, `updatedAt ≥ createdAt`,
`revokedAt ≥ updatedAt` when present); `mint` and `revoke` only ever return
records satisfying it, and constructing a violating record fails
(`__post_init__` raises, modelled by the `Except.error` branches). -/
theorem C8_calendar_record_invariant
    (token userId createdAt updatedAt : String) (revoked : Bool)
    (revokedAt mintCA raOpt : Option String) (nowTs : String)
    (r0 r : CalendarTokenRecord) :
    (mkCalendarTokenRecord token userId createdAt updatedAt revoked revokedAt = .ok r →
      RecordInvariant r) ∧
    (mintRecord token userId mintCA nowTs = .ok r → RecordInvariant r) ∧
    (revokeRecord r0 raOpt nowTs = .ok r → RecordInvariant r) :=
  ⟨fun h => mk_ok_invariant h, fun h => mk_ok_invariant h, fun h => mk_ok_invariant h⟩

/-- **C8 witness.** A concrete mint followed by a concrete revoke, with the
invariant obtained by applying `C8_calendar_record_invariant` at those
inputs. -/
theorem C8_calendar_record_witness :
    RecordInvariant ⟨"tok-1", "user-1", "2026-01-01T00:00:00Z", "2026-01-01T00:00:00Z",
      false, none⟩ ∧
    RecordInvariant ⟨"tok-1", "user-1", "2026-01-01T00:00:00Z", "2026-01-02T12:00:00Z",
      true, some "2026-01-02T12:00:00Z"⟩ :=
  ⟨(C8_calendar_record_invariant "tok-1" "user-1" "2026-01-01T00:00:00Z"
      "2026-01-01T00:00:00Z" false none none none "2026-01-01T00:00:00Z"
      ⟨"tok-1", "user-1", "2026-01-01T00:00:00Z", "2026-01-01T00:00:00Z", false, none⟩
      ⟨"tok-1", "user-1", "2026-01-01T00:00:00Z", "2026-01-01T00:00:00Z", false, none⟩).2.1
      (by rfl),
   (C8_calendar_record_invariant "tok-1" "user-1" "2026-01-01T00:00:00Z"
      "2026-01-01T00:00:00Z" false none none (some "2026-01-02T12:00:00Z") "x"
      ⟨"tok-1", "user-1", "2026-01-01T00:00:00Z", "2026-01-01T00:00:00Z", false, none⟩
      ⟨"tok-1", "user-1", "2026-01-01T00:00:00Z", "2026-01-02T12:00:00Z",
        true, some "2026-01-02T12:00:00Z"⟩).2.2
      (by rfl)⟩

/-! ### C1 lemmas and theorems -/

lemma le_roundHalfEvenInt (n : Int) (x : ℚ) (h : (n : ℚ) ≤ x) : n ≤ roundHalfEvenInt x := by
  have hnf : n ≤ ⌊x⌋ := Int.le_floor.mpr h
  unfold roundHalfEvenInt
  split
  · exact hnf
  · split
    · omega
    · split <;> omega

lemma roundHalfEvenInt_le (n : Int) (x : ℚ) (h : x ≤ (n : ℚ)) : roundHalfEvenInt x ≤ n := by
  have hfl : ⌊x⌋ ≤ n := by
    have h1 : ⌊x⌋ ≤ ⌊(n : ℚ)⌋ := Int.floor_le_floor h
    simpa using h1
  unfold roundHalfEvenInt
  split
  · exact hfl
  next hge =>
    have hx2 : (1 : ℚ)/2 ≤ x - (⌊x⌋ : ℚ) := not_lt.mp hge
    have hint : ⌊x⌋ < n := by
      have hcast : ((⌊x⌋ : Int) : ℚ) < (n : ℚ) := by linarith
      exact_mod_cast hcast
    split
    · omega
    · split <;> omega

lemma pyRound6_ge (m : Int) (x : ℚ) (h : (m : ℚ) / 1000000 ≤ x) :
    (m : ℚ) / 1000000 ≤ pyRound6 x := by
  have h1 : (m : ℚ) ≤ x * 1000000 := by
    have := (div_le_iff₀ (by norm_num : (0:ℚ) < 1000000)).mp h
    linarith
  have h2 : m ≤ roundHalfEvenInt (x * 1000000) := le_roundHalfEvenInt m _ h1
  have h3 : (m : ℚ) ≤ (roundHalfEvenInt (x * 1000000) : ℚ) := by exact_mod_cast h2
  unfold pyRound6
  linarith

lemma pyRound6_le (m : Int) (x : ℚ) (h : x ≤ (m : ℚ) / 1000000) :
    pyRound6 x ≤ (m : ℚ) / 1000000 := by
  have h1 : x * 1000000 ≤ (m : ℚ) := by
    have := (le_div_iff₀ (by norm_num : (0:ℚ) < 1000000)).mp h
    linarith
  have h2 : roundHalfEvenInt (x * 1000000) ≤ m := roundHalfEvenInt_le m _ h1
  have h3 : (roundHalfEvenInt (x * 1000000) : ℚ) ≤ (m : ℚ) := by exact_mod_cast h2
  unfold pyRound6
  linarith

lemma pyRound6_ge_3_20 {x : ℚ} (h : 3/20 ≤ x) : 3/20 ≤ pyRound6 x := by
  have h2 := pyRound6_ge 150000 x (by push_cast; linarith)
  have h3 : ((150000 : Int) : ℚ)/1000000 = 3/20 := by norm_num
  linarith

lemma pyRound6_ge_1 {x : ℚ} (h : 1 ≤ x) : 1 ≤ pyRound6 x := by
  have h2 := pyRound6_ge 1000000 x (by push_cast; linarith)
  have h3 : ((1000000 : Int) : ℚ)/1000000 = 1 := by norm_num
  linarith

lemma pyRound6_le_10 {x : ℚ} (h : x ≤ 10) : pyRound6 x ≤ 10 := by
  have h2 := pyRound6_le 10000000 x (by push_cast; linarith)
  have h3 : ((10000000 : Int) : ℚ)/1000000 = 10 := by norm_num
  linarith

lemma clampQ_lower (x lo hi : ℚ) : lo ≤ clampQ x lo hi := le_max_left _ _

lemma clampQ_upper (x : ℚ) {lo hi : ℚ} (h : lo ≤ hi) : clampQ x lo hi ≤ hi :=
  max_le h (min_le_left _ _)

lemma fsrsFromMapping_ok {raw : FSRSPrior} {current : FSRSValid}
    (h : fsrsFromMapping raw = .ok current) :
    current.reps = raw.reps ∧ current.lapses = raw.lapses := by
  unfold fsrsFromMapping at h
  split at h
  · split at h
    · exact absurd h (by simp)
    · split at h
      · exact absurd h (by simp)
      · cases h; exact ⟨rfl, rfl⟩
  · exact absurd h (by simp)

/-- **C1.** For every input `(priorState, rating ∈ 1..4, now)` on which
`schedule_review` succeeds, the output satisfies `stability ≥ 0.15`,
`difficulty ∈ [1,10]`, `reps' = reps + 1`, `lapses' = lapses + [rating=1]`
and `dueAt' ≥ lastReviewedAt'` (first reviews use baseline
`reps = lapses = 0`). Determinism is inherent: the embedding is a pure
function of its arguments, exactly as the Python code computes no
nondeterministic values. -/
theorem C1_schedule_review_properties (prior : Option FSRSPrior) (rating : Int)
    (now : ℚ) (out : FSRSOut)
    (h : scheduleReview prior rating now = .ok out) :
    3/20 ≤ out.stability ∧ 1 ≤ out.difficulty ∧ out.difficulty ≤ 10 ∧
    out.reps = priorReps prior + 1 ∧
    out.lapses = priorLapses prior + (if rating = 1 then 1 else 0) ∧
    out.lastReviewedAt ≤ out.dueAt := by
  unfold scheduleReview at h
  split at h
  · exact absurd h (by simp)
  next hr =>
    have hrat : rating = 1 ∨ rating = 2 ∨ rating = 3 ∨ rating = 4 := not_not.mp hr
    split at h
    · -- prior = none
      injection h with h
      subst h
      have hstab : 3/20 ≤ firstStability rating := by
        rcases hrat with rfl | rfl | rfl | rfl <;> norm_num [firstStability]
      have hint0 : 0 ≤ firstIntervalDays rating := by
        rcases hrat with rfl | rfl | rfl | rfl <;> norm_num [firstIntervalDays]
      refine ⟨pyRound6_ge_3_20 hstab, pyRound6_ge_1 (clampQ_lower _ _ _),
        pyRound6_le_10 (clampQ_upper _ (by norm_num)), by simp [firstReview, priorReps],
        ?_, ?_⟩
      · simp only [firstReview, priorLapses]
        omega
      · simp only [firstReview]
        exact Int.floor_le_floor (by nlinarith)
    · -- prior = some raw
      next raw =>
      split at h
      · exact absurd h (by simp)
      next current hcur =>
        obtain ⟨hreps, hlaps⟩ := fsrsFromMapping_ok hcur
        split at h
        · -- rating = 1
          next h1 =>
          injection h with h
          subst h
          refine ⟨pyRound6_ge_3_20 (le_max_left _ _), pyRound6_ge_1 (clampQ_lower _ _ _),
            pyRound6_le_10 (clampQ_upper _ (by norm_num)), by simp [priorReps, hreps],
            by simp [priorLapses, hlaps, h1], ?_⟩
          exact Int.floor_le_floor (by nlinarith)
        · -- rating ∈ {2,3,4}
          next h1 =>
          injection h with h
          subst h
          have hfac : 0 ≤ reviewIntervalFactor rating := by
            rcases hrat with rfl | rfl | rfl | rfl
            · exact absurd rfl h1
            all_goals norm_num [reviewIntervalFactor]
          have hns : (0:ℚ) ≤ max (3/20)
              (current.stability * (1 + (1/4 + (2/25) * (rating : ℚ)) *
                (1 + max 0 (1 - retrievabilityQ current.stability
                  (max 0 ((now - (current.lastReviewedAt : ℚ)) / 86400)))) *
                ((11 - current.difficulty) / 10))) := le_trans (by norm_num) (le_max_left _ _)
          refine ⟨pyRound6_ge_3_20 (le_max_left _ _), pyRound6_ge_1 (clampQ_lower _ _ _),
            pyRound6_le_10 (clampQ_upper _ (by norm_num)), by simp [priorReps, hreps],
            by simp [priorLapses, hlaps, h1], ?_⟩
          refine Int.floor_le_floor ?_
          nlinarith [mul_nonneg (mul_nonneg hns hfac) (by norm_num : (0:ℚ) ≤ 86400)]

/-- **C1 witness.** The first-review "Good" rating at epoch instant 0:
`schedule_review(None, 3, 0)` succeeds and the properties hold at that
concrete output. -/
theorem C1_schedule_review_witness :
    3/20 ≤ ((⟨86400, 5/2, 47/10, 1, 0, 0⟩ : FSRSOut)).stability ∧
    1 ≤ ((⟨86400, 5/2, 47/10, 1, 0, 0⟩ : FSRSOut)).difficulty ∧
    ((⟨86400, 5/2, 47/10, 1, 0, 0⟩ : FSRSOut)).difficulty ≤ 10 ∧
    ((⟨86400, 5/2, 47/10, 1, 0, 0⟩ : FSRSOut)).reps = priorReps none + 1 ∧
    ((⟨86400, 5/2, 47/10, 1, 0, 0⟩ : FSRSOut)).lapses =
      priorLapses none + (if (3:Int) = 1 then 1 else 0) ∧
    ((⟨86400, 5/2, 47/10, 1, 0, 0⟩ : FSRSOut)).lastReviewedAt ≤
      ((⟨86400, 5/2, 47/10, 1, 0, 0⟩ : FSRSOut)).dueAt :=
  C1_schedule_review_properties none 3 0 ⟨86400, 5/2, 47/10, 1, 0, 0⟩ (by
    simp only [scheduleReview, firstReview, firstIntervalDays, firstStability,
      firstDifficultyDelta, clampQ, pyRound6, roundHalfEvenInt]
    norm_num)


/-! ### C2 lemmas and theorems -/

lemma rowEntry_text {row : KBRow} {e : CtxEntry} (h : rowEntry row = some e) :
    e.text ≠ "" := by
  unfold rowEntry at h
  split at h
  · split at h
    · exact absurd h (by simp)
    · next hne =>
      cases h
      exact hne
  · exact absurd h (by simp)

lemma partitionRows_eq (courseId : String) (rows : List KBRow) :
    partitionRows courseId rows =
      ((rows.filterMap rowEntry).filter (fun e => sourceInCourseScope e.source courseId),
        rows.filterMap rowEntry) := by
  induction rows with
  | nil => simp [partitionRows]
  | cons row rest ih =>
    simp only [partitionRows, ih, List.filterMap_cons]
    cases hre : rowEntry row with
    | none => simp
    | some e =>
      by_cases hs : sourceInCourseScope e.source courseId
      · simp [hs]
      · simp [hs]

/-- **C2.** Every context row returned by `_retrieve_context` has non-empty
text; when at least one valid result is in scope for the course, the result
is the first `k` in-scope entries in original order; the fall-back to
out-of-scope results fires exactly when the scoped partition is empty and
some valid result exists (and then every returned row is out of scope);
with no valid result the context is empty. -/
theorem C2_retrieve_context_scoping (rows : List KBRow) (courseId : String) (k : Nat) :
    (∀ e ∈ retrieveContext rows courseId k, e.text ≠ "") ∧
    ((rows.filterMap rowEntry).filter (fun e => sourceInCourseScope e.source courseId) ≠ [] →
      retrieveContext rows courseId k =
        ((rows.filterMap rowEntry).filter
          (fun e => sourceInCourseScope e.source courseId)).take k) ∧
    ((rows.filterMap rowEntry).filter (fun e => sourceInCourseScope e.source courseId) = [] →
      rows.filterMap rowEntry ≠ [] →
      retrieveContext rows courseId k = (rows.filterMap rowEntry).take k ∧
      ∀ e ∈ retrieveContext rows courseId k,
        sourceInCourseScope e.source courseId = false) ∧
    (rows.filterMap rowEntry = [] → retrieveContext rows courseId k = []) := by
  have hmemtext : ∀ e ∈ rows.filterMap rowEntry, e.text ≠ "" := by
    intro e he
    obtain ⟨row, _, hre⟩ := List.mem_filterMap.mp he
    exact rowEntry_text hre
  simp only [retrieveContext, partitionRows_eq]
  refine ⟨?_, ?_, ?_, ?_⟩
  · intro e he
    split at he
    · exact hmemtext e (List.mem_of_mem_filter (List.take_subset _ _ he))
    · split at he
      · exact hmemtext e (List.take_subset _ _ he)
      · simp at he
  · intro hf
    rw [if_pos hf]
  · intro hf hv
    rw [if_neg (not_not_intro hf), if_pos hv]
    refine ⟨rfl, ?_⟩
    intro e he
    have hev : e ∈ rows.filterMap rowEntry := List.take_subset _ _ he
    have hnot := (List.filter_eq_nil_iff.mp hf) e hev
    simpa using hnot
  · intro hv
    rw [hv]
    simp

/-- **C2 witness.** The spec's scope-fallback scenario: three chunks, two
in scope for course `170880`, one for `424242`; retrieval with `k = 2`
returns exactly the two in-scope chunks in order. -/
theorem C2_retrieve_context_witness :
    retrieveContext
      [⟨some "alpha", "s3://kb/uploads/170880/doc1/a.pdf"⟩,
       ⟨some "beta", "s3://kb/uploads/170880/doc2/b.pdf"⟩,
       ⟨some "gamma", "s3://kb/uploads/424242/doc3/c.pdf"⟩] "170880" 2 =
      [⟨"alpha", "s3://kb/uploads/170880/doc1/a.pdf"⟩,
       ⟨"beta", "s3://kb/uploads/170880/doc2/b.pdf"⟩] := by
  have h := (C2_retrieve_context_scoping
      [⟨some "alpha", "s3://kb/uploads/170880/doc1/a.pdf"⟩,
       ⟨some "beta", "s3://kb/uploads/170880/doc2/b.pdf"⟩,
       ⟨some "gamma", "s3://kb/uploads/424242/doc3/c.pdf"⟩] "170880" 2).2.1 (by decide)
  rw [h]
  decide


/-! ### C3 lemmas and theorems -/

/-- Known-answer test pinning down the SHA-256 embedding (FIPS 180-4
vector for `"abc"`). -/
lemma sha256Hex_abc :
    sha256Hex (utf8Encode "abc") =
      "ba7816bf8f01cfea414140de5dae2223b00361a396177a9cb410ff61f20015ad" := by
  decide

lemma sha256Round_length (st : List Nat) (kw : Nat × Nat) :
    (sha256Round st kw).length = st.length := by
  unfold sha256Round
  split
  · rfl
  · rfl

lemma sha256Compress_length {h : List Nat} (hh : h.length = 8) (block : List Nat) :
    (sha256Compress h block).length = 8 := by
  unfold sha256Compress
  have hst : ∀ (l : List (Nat × Nat)) (st : List Nat),
      (l.foldl sha256Round st).length = st.length := by
    intro l
    induction l with
    | nil => intro st; rfl
    | cons kw t ih => intro st; rw [List.foldl_cons, ih, sha256Round_length]
  rw [List.length_map, List.length_zip, hst, hh]
  simp

lemma sha256Compress_lt (h block : List Nat) :
    ∀ w ∈ sha256Compress h block, w < 4294967296 := by
  intro w hw
  unfold sha256Compress at hw
  obtain ⟨p, _, hp⟩ := List.mem_map.mp hw
  rw [← hp]
  exact Nat.mod_lt _ (by norm_num)

lemma sha256Words_spec (msg : List Nat) :
    (sha256Words msg).length = 8 ∧ ∀ w ∈ sha256Words msg, w < 4294967296 := by
  unfold sha256Words
  have main : ∀ (blocks : List (List Nat)) (h : List Nat), h.length = 8 →
      (∀ w ∈ h, w < 4294967296) →
      (blocks.foldl sha256Compress h).length = 8 ∧
        ∀ w ∈ blocks.foldl sha256Compress h, w < 4294967296 := by
    intro blocks
    induction blocks with
    | nil => intro h h8 hlt; exact ⟨h8, hlt⟩
    | cons b t ih =>
      intro h h8 hlt
      exact ih _ (sha256Compress_length h8 b) (sha256Compress_lt h b)
  exact main _ sha256Init rfl (by decide)

lemma foldl_base_lt :
    ∀ (l : List Nat), (∀ w ∈ l, w < 4294967296) → ∀ (acc C : Nat), acc < C →
      l.foldl (fun a w => a * 4294967296 + w) acc < C * 4294967296 ^ l.length := by
  intro l
  induction l with
  | nil => intro _ acc C h; simpa using h
  | cons w t ih =>
    intro hlt acc C hacc
    have hw : w < 4294967296 := hlt w (List.mem_cons_self w t)
    have hstep : acc * 4294967296 + w < C * 4294967296 := by nlinarith
    have := ih (fun x hx => hlt x (List.mem_cons_of_mem w hx)) (acc * 4294967296 + w)
      (C * 4294967296) hstep
    calc (w :: t).foldl (fun a w => a * 4294967296 + w) acc
        = t.foldl (fun a w => a * 4294967296 + w) (acc * 4294967296 + w) := rfl
      _ < C * 4294967296 * 4294967296 ^ t.length := this
      _ = C * 4294967296 ^ (w :: t).length := by
          rw [List.length_cons, pow_succ]; ring

lemma sha256Num_lt (msg : List Nat) : sha256Num msg < 2 ^ 256 := by
  obtain ⟨h8, hlt⟩ := sha256Words_spec msg
  have := foldl_base_lt (sha256Words msg) hlt 0 1 (by norm_num)
  rw [h8] at this
  unfold sha256Num
  calc (sha256Words msg).foldl (fun acc w => acc * 4294967296 + w) 0
      < 1 * 4294967296 ^ 8 := this
    _ = 2 ^ 256 := by norm_num

/-- **C3 counterexample.** The claim's "differing pairs always yield
differing tokens" is false: `(sourceKey, textLength) ↦ clientToken` maps an
infinite domain into the finitely many 256-bit digests, so two differing
pairs share a token (pigeonhole; no explicit collision is exhibited, none
being computable, but the universal statement is refuted). -/
theorem C3_client_token_counterexample :
    ¬ (∀ (k1 : String) (n1 : Nat) (k2 : String) (n2 : Nat),
        (k1, n1) ≠ (k2, n2) → kbClientToken k1 n1 ≠ kbClientToken k2 n2) := by
  intro H
  obtain ⟨n1, n2, hne, heq⟩ := Finite.exists_ne_map_eq_of_infinite
    (fun n : Nat => (⟨sha256Num (utf8Encode ("" ++ ":" ++ Nat.repr n)) % 2 ^ 256,
      Nat.mod_lt _ (by positivity)⟩ : Fin (2 ^ 256)))
  have hval := congrArg Fin.val heq
  simp only [] at hval
  rw [Nat.mod_eq_of_lt (sha256Num_lt _), Nat.mod_eq_of_lt (sha256Num_lt _)] at hval
  have htok : kbClientToken "" n1 = kbClientToken "" n2 := by
    unfold kbClientToken sha256Hex
    rw [hval]
  exact H "" n1 "" n2 (by simp [hne]) htok

lemma toDigitsCore_eq_decChars :
    ∀ (fuel n : Nat) (ds : List Char), n < fuel →
      Nat.toDigitsCore 10 fuel n ds = decChars n ++ ds := by
  intro fuel
  induction fuel with
  | zero => intro n ds h; omega
  | succ f ih =>
    intro n ds h
    rw [show Nat.toDigitsCore 10 (f + 1) n ds =
        (if n / 10 = 0 then Nat.digitChar (n % 10) :: ds
         else Nat.toDigitsCore 10 f (n / 10) (Nat.digitChar (n % 10) :: ds)) from rfl]
    by_cases h10 : n / 10 = 0
    · rw [if_pos h10]
      have hn : n < 10 := by omega
      rw [decChars, if_pos hn, Nat.mod_eq_of_lt hn]
      rfl
    · rw [if_neg h10]
      have hlt : n / 10 < f :=
        lt_of_lt_of_le (Nat.div_lt_self (by omega) (by norm_num)) (by omega)
      rw [ih (n / 10) _ hlt]
      conv_rhs => rw [decChars]
      rw [if_neg (by omega : ¬ n < 10)]
      simp

lemma natRepr_eq_decChars (n : Nat) : (Nat.repr n).data = decChars n := by
  show (Nat.toDigits 10 n).asString.data = decChars n
  rw [Nat.toDigits, toDigitsCore_eq_decChars (n + 1) n [] (by omega)]
  simp [List.asString]

lemma digitChar_digit {k : Nat} (h : k < 10) : isDigitCh (Nat.digitChar k) = true := by
  interval_cases k <;> decide

lemma digitVal_digitChar {k : Nat} (h : k < 10) : digitVal (Nat.digitChar k) = k := by
  interval_cases k <;> decide

lemma decChars_digits (n : Nat) : ∀ c ∈ decChars n, isDigitCh c = true := by
  induction n using Nat.strong_induction_on with
  | _ n ih =>
    rw [decChars]
    split
    · next h =>
      intro c hc
      simp only [List.mem_singleton] at hc
      subst hc
      exact digitChar_digit h
    · next h =>
      intro c hc
      rcases List.mem_append.mp hc with hc | hc
      · exact ih (n / 10) (Nat.div_lt_self (by omega) (by norm_num)) c hc
      · simp only [List.mem_singleton] at hc
        subst hc
        exact digitChar_digit (Nat.mod_lt _ (by norm_num))

lemma evalDec_decChars (n : Nat) : evalDec (decChars n) = n := by
  induction n using Nat.strong_induction_on with
  | _ n ih =>
    rw [decChars]
    split
    · next h =>
      have hdv := digitVal_digitChar h
      simp [evalDec, hdv]
    · next h =>
      have hrec := ih (n / 10) (Nat.div_lt_self (by omega) (by norm_num))
      unfold evalDec at hrec ⊢
      rw [List.foldl_append, hrec]
      show (n / 10) * 10 + digitVal (Nat.digitChar (n % 10)) = n
      rw [digitVal_digitChar (Nat.mod_lt _ (by norm_num))]
      omega

lemma natRepr_injective {a b : Nat} (h : Nat.repr a = Nat.repr b) : a = b := by
  have hd : decChars a = decChars b := by
    rw [← natRepr_eq_decChars, ← natRepr_eq_decChars, h]
  calc a = evalDec (decChars a) := (evalDec_decChars a).symm
    _ = evalDec (decChars b) := by rw [hd]
    _ = b := evalDec_decChars b

lemma append_colon_injective :
    ∀ (r1 r2 k1 k2 : List Char), (∀ c ∈ r1, c ≠ ':') → (∀ c ∈ r2, c ≠ ':') →
      r1 ++ ':' :: k1 = r2 ++ ':' :: k2 → r1 = r2 ∧ k1 = k2 := by
  intro r1
  induction r1 with
  | nil =>
    intro r2 k1 k2 _ h2 h
    cases r2 with
    | nil => simpa using h
    | cons b t =>
      simp only [List.nil_append, List.cons_append, List.cons.injEq] at h
      exact absurd h.1.symm (h2 b (List.mem_cons_self b t))
  | cons a t ih =>
    intro r2 k1 k2 h1 h2 h
    cases r2 with
    | nil =>
      simp only [List.nil_append, List.cons_append, List.cons.injEq] at h
      exact absurd h.1 (h1 a (List.mem_cons_self a t))
    | cons b t2 =>
      simp only [List.cons_append, List.cons.injEq] at h
      obtain ⟨rfl, hrest⟩ := h
      obtain ⟨hteq, hkeq⟩ := ih t2 k1 k2
        (fun c hc => h1 c (List.mem_cons_of_mem a hc))
        (fun c hc => h2 c (List.mem_cons_of_mem a hc)) hrest
      exact ⟨by rw [hteq], hkeq⟩

lemma preimage_injective {k1 k2 : String} {n1 n2 : Nat}
    (h : k1 ++ ":" ++ Nat.repr n1 = k2 ++ ":" ++ Nat.repr n2) : k1 = k2 ∧ n1 = n2 := by
  have hdata : k1.data ++ ':' :: (Nat.repr n1).data =
      k2.data ++ ':' :: (Nat.repr n2).data := by
    have := congrArg String.data h
    simpa [String.data_append] using this
  have hrev : (Nat.repr n1).data.reverse ++ ':' :: k1.data.reverse =
      (Nat.repr n2).data.reverse ++ ':' :: k2.data.reverse := by
    have := congrArg List.reverse hdata
    simpa [List.reverse_append] using this
  have hdig : ∀ (n : Nat) (c : Char), c ∈ (Nat.repr n).data.reverse → c ≠ ':' := by
    intro n c hc hcol
    have hmem : c ∈ decChars n := by
      rw [← natRepr_eq_decChars]
      exact List.mem_reverse.mp hc
    have := decChars_digits n c hmem
    rw [hcol] at this
    exact absurd this (by decide)
  obtain ⟨hr, hk⟩ := append_colon_injective _ _ _ _ (hdig n1) (hdig n2) hrev
  have hkstr : k1 = k2 := by
    apply congrArg String.mk (List.reverse_injective hk)
  have hnstr : n1 = n2 := by
    apply natRepr_injective
    have hdataeq : (Nat.repr n1).data = (Nat.repr n2).data := List.reverse_injective hr
    cases hn1 : Nat.repr n1
    cases hn2 : Nat.repr n2
    simp_all
  exact ⟨hkstr, hnstr⟩

/-- **C3 (amended).** The finalize client token is the SHA-256 hex digest
of `"{sourceKey}:{textLength}"` and a pure deterministic function of the
pair; differing pairs always yield differing *preimage strings* (the
encoding is injective), so equal tokens for differing pairs require a
SHA-256 collision; but "differing pairs always yield differing tokens" as
a universal statement is dropped (refuted by pigeonhole, see the
counterexample). -/
theorem C3_client_token_amended (k1 k2 : String) (n1 n2 : Nat) :
    kbClientToken k1 n1 = sha256Hex (utf8Encode (k1 ++ ":" ++ Nat.repr n1)) ∧
    ((k1, n1) = (k2, n2) → kbClientToken k1 n1 = kbClientToken k2 n2) ∧
    ((k1, n1) ≠ (k2, n2) →
      (k1 ++ ":" ++ Nat.repr n1) ≠ (k2 ++ ":" ++ Nat.repr n2)) := by
  refine ⟨rfl, ?_, ?_⟩
  · intro h
    have h1 : k1 = k2 := (Prod.ext_iff.mp h).1
    have h2 : n1 = n2 := (Prod.ext_iff.mp h).2
    rw [h1, h2]
  · intro hne hpre
    obtain ⟨hk, hn⟩ := preimage_injective hpre
    exact hne (by rw [hk, hn])

/-- **C3 witness.** Concrete instances: the same pair yields the same
token, and the scenario-3 pair (same key, text lengths 1000 vs 1001)
yields differing preimages. -/
theorem C3_client_token_witness :
    kbClientToken "uploads/c/d/f.pdf" 1000 = kbClientToken "uploads/c/d/f.pdf" 1000 ∧
    ("uploads/c/d/f.pdf" ++ ":" ++ Nat.repr 1000) ≠
      ("uploads/c/d/f.pdf" ++ ":" ++ Nat.repr 1001) :=
  ⟨(C3_client_token_amended "uploads/c/d/f.pdf" "uploads/c/d/f.pdf" 1000 1000).2.1 rfl,
   (C3_client_token_amended "uploads/c/d/f.pdf" "uploads/c/d/f.pdf" 1000 1001).2.2
     (by simp)⟩


/-! ### C6 lemmas and theorems -/

lemma mem_insertSorted {α : Type} {le : α → α → Bool} {a b : α} {l : List α} :
    b ∈ insertSorted le a l ↔ b = a ∨ b ∈ l := by
  induction l with
  | nil => simp [insertSorted]
  | cons c t ih =>
    unfold insertSorted
    split
    · simp
    · rw [List.mem_cons, ih, List.mem_cons]
      tauto

lemma mem_pySortBy {α : Type} {le : α → α → Bool} {b : α} {l : List α} :
    b ∈ pySortBy le l ↔ b ∈ l := by
  induction l with
  | nil => simp [pySortBy]
  | cons a t ih =>
    unfold pySortBy
    rw [mem_insertSorted, ih, List.mem_cons]

/-- **C6 counterexample.** The claim's rule applies the regexes exactly as
written, hence case-sensitively; but the code compiles both patterns with
`re.IGNORECASE`. For the published row titled "Quiz 3" (no `quiz_id`) the
code classifies `quiz`, the claim's literal rule `assignment`. -/
theorem C6_item_type_counterexample :
    (fetchCourseAssignments "C101"
        [⟨true, some "2026-01-01T00:00:00Z", some "1", some "Quiz 3", none, none⟩]).map
      (fun i => i.itemType) = ["quiz"] ∧
    claimItemType none "Quiz 3" = "assignment" := by
  constructor
  · rfl
  · rfl

/-- **C6 (amended).** Every fetched assignment row comes from an input row
via the published/due-date/title filter, and its `itemType` is `"quiz"` if
`quiz_id` is present or the title matches `\bquiz\b` case-insensitively,
else `"exam"` if it matches `\b(midterm|final|exam)\b` case-insensitively,
else `"assignment"` — also for titles that match both families, since the
quiz test runs first. -/
theorem C6_item_type_amended (courseId : String) (rows : List CanvasAssignmentRow) :
    ∀ item ∈ fetchCourseAssignments courseId rows, ∃ row ∈ rows,
      rowItem courseId row = some item ∧
      item.itemType = claimItemTypeCI row.quizId ((row.name).getD "") := by
  intro item hmem
  rw [fetchCourseAssignments, mem_pySortBy] at hmem
  obtain ⟨row, hrow, hitem⟩ := List.mem_filterMap.mp hmem
  refine ⟨row, hrow, hitem, ?_⟩
  unfold rowItem at hitem
  split at hitem
  · split at hitem
    · split at hitem
      · split at hitem
        · split at hitem
          · cases hitem
            clear hmem
            simp_all [assignmentItemType, claimItemTypeCI, quizMatch, examMatch]
          · exact absurd hitem (by simp)
        · exact absurd hitem (by simp)
      · exact absurd hitem (by simp)
    · exact absurd hitem (by simp)
  · exact absurd hitem (by simp)

/-- **C6 witness.** Two fetched rows: a "Quiz 3" row classified `quiz` and
a "Final Exam" row classified `exam`, the theorem applied at the quiz
item. -/
theorem C6_item_type_witness :
    ∃ row ∈ [(⟨true, some "2026-01-01T00:00:00Z", some "1", some "Quiz 3", none, none⟩ :
        CanvasAssignmentRow),
      ⟨true, some "2026-02-01T00:00:00Z", some "2", some "Final Exam", none, none⟩],
      rowItem "C101" row =
        some ⟨"1", "C101", "Quiz 3", "quiz", "2026-01-01T00:00:00Z", 0⟩ ∧
      (⟨"1", "C101", "Quiz 3", "quiz", "2026-01-01T00:00:00Z", 0⟩ :
          CanvasItemOut).itemType =
        claimItemTypeCI row.quizId ((row.name).getD "") :=
  C6_item_type_amended "C101"
    [⟨true, some "2026-01-01T00:00:00Z", some "1", some "Quiz 3", none, none⟩,
     ⟨true, some "2026-02-01T00:00:00Z", some "2", some "Final Exam", none, none⟩]
    ⟨"1", "C101", "Quiz 3", "quiz", "2026-01-01T00:00:00Z", 0⟩ (by
      rw [fetchCourseAssignments, mem_pySortBy]
      simp only [List.mem_filterMap]
      exact ⟨⟨true, some "2026-01-01T00:00:00Z", some "1", some "Quiz 3", none, none⟩,
        by simp, rfl⟩)


/-! ### C4 lemmas and theorems -/

lemma isEmpty_false_of_ne_nil {α : Type} {l : List α} (h : l ≠ []) : l.isEmpty = false := by
  cases l with
  | nil => exact absurd rfl h
  | cons a t => rfl

lemma sortCards_isEmpty_false {cards : List StudyCard} (h : cards ≠ []) :
    (sortCards cards).isEmpty = false := by
  cases cards with
  | nil => exact absurd rfl h
  | cons c t =>
    apply isEmpty_false_of_ne_nil
    intro hs
    have hmem : c ∈ sortCards (c :: t) := mem_pySortBy.mpr (List.mem_cons_self c t)
    rw [hs] at hmem
    simp at hmem

/-- **C4 counterexample.** With one card that is not yet due and an exam 14
days out, the claim says only the due cards (here: none) are returned, but
`_runtime_study_today` falls back to the first 5 cards of the course and
returns the non-due card. -/
theorem C4_study_today_counterexample :
    studyToday [⟨"c1", "C", "T", "p", "a", some 86400, none⟩]
        [⟨"e1", "exam", some 1209600⟩] none 0 =
      [⟨"c1", "C", "T", "p", "a"⟩] ∧
    ([(⟨"c1", "C", "T", "p", "a", some 86400, none⟩ : StudyCard)].filter (isDueCard 0)) = [] ∧
    resolveExamDueAt [⟨"e1", "exam", some 1209600⟩] none 0 = some 1209600 ∧
    ¬ ((1209600 : Int) ≤ 0 + 604800) := by
  refine ⟨by decide, by decide, by decide, by decide⟩

/-- **C4 (amended).** When a resolved exam due date lies in
`[now, now + 7 days]`, the response is the due cards followed by the
boosters, truncated to 50 and projected, provided that selection is
non-empty; every booster's id is not among the due ids and its topic's mean
`clamp(stability/10, 0, 1)` mastery (missing `fsrsState` counting 0) is
below 0.5, with boosters sorted by `(topicMastery, dueAt, id)` by
construction. When no resolved exam due date is near, only the due cards
are returned (truncated to 50) when any card is due; when the selection is
empty but the course has cards, the first 5 cards in stable `(dueAt, id)`
order are returned instead; with no cards the response is empty. -/
theorem C4_study_today_amended (cards : List StudyCard) (items : List ExamItem)
    (examId : Option String) (now : Int) :
    (∀ d, resolveExamDueAt items examId now = some d → now ≤ d → d ≤ now + 604800 →
      dueCards cards now ++ boosterCards cards now ≠ [] →
      studyToday cards items examId now =
        ((dueCards cards now ++ boosterCards cards now).take 50).map projectCard) ∧
    (∀ b ∈ boosterCards cards now,
      (dueCards cards now).any (fun dc => dc.id == b.id) = false ∧
      topicMastery (sortCards cards) b.topicId < 1/2) ∧
    ((∀ d, resolveExamDueAt items examId now = some d → ¬(now ≤ d ∧ d ≤ now + 604800)) →
      dueCards cards now ≠ [] →
      studyToday cards items examId now = ((dueCards cards now).take 50).map projectCard) ∧
    ((∀ d, resolveExamDueAt items examId now = some d → ¬(now ≤ d ∧ d ≤ now + 604800)) →
      cards ≠ [] → dueCards cards now = [] →
      studyToday cards items examId now = ((sortCards cards).take 5).map projectCard) ∧
    (cards = [] → studyToday cards items examId now = []) := by
  have hfarNear : (∀ d, resolveExamDueAt items examId now = some d →
      ¬(now ≤ d ∧ d ≤ now + 604800)) →
      (match resolveExamDueAt items examId now with
        | some d => decide (now ≤ d) && decide (d ≤ now + 604800)
        | none => false) = false := by
    intro hfar
    cases hres : resolveExamDueAt items examId now with
    | none => rfl
    | some d =>
      have hnot := hfar d hres
      by_cases hA : now ≤ d
      · have hB : ¬ d ≤ now + 604800 := fun hB => hnot ⟨hA, hB⟩
        simp [hA, hB]
      · simp [hA]
  refine ⟨?_, ?_, ?_, ?_, ?_⟩
  · intro d hres h1 h2 hne
    have hcards : cards ≠ [] := by
      intro hc
      subst hc
      exact hne rfl
    have hnear : (match resolveExamDueAt items examId now with
        | some d => decide (now ≤ d) && decide (d ≤ now + 604800)
        | none => false) = true := by
      rw [hres]
      simp [h1, h2]
    simp only [studyToday, sortCards_isEmpty_false hcards, hnear,
      Bool.false_eq_true, if_false, if_true, isEmpty_false_of_ne_nil hne]
  · intro b hb
    unfold boosterCards at hb
    rw [mem_pySortBy, List.mem_filter, Bool.and_eq_true] at hb
    obtain ⟨hmem, hdue, hlow⟩ := hb
    refine ⟨by simpa using hdue, ?_⟩
    unfold lowMasteryTopic at hlow
    rw [Bool.and_eq_true] at hlow
    exact of_decide_eq_true hlow.2
  · intro hfar hdue
    have hcards : cards ≠ [] := by
      intro hc
      subst hc
      exact hdue rfl
    simp only [studyToday, sortCards_isEmpty_false hcards, hfarNear hfar,
      Bool.false_eq_true, if_false, isEmpty_false_of_ne_nil hdue]
  · intro hfar hcards hdueemp
    simp only [studyToday, sortCards_isEmpty_false hcards, hfarNear hfar,
      Bool.false_eq_true, if_false, hdueemp, List.isEmpty_nil, if_true]
    rw [List.take_take]
    norm_num
  · intro hc
    subst hc
    rfl


/-- **C4 witness.** The spec's near-exam booster scenario: due cards `D1`,
`D2` in a strong topic, non-due boosters `B1`, `B2` in a weak topic, one
non-due card `H3` in the strong topic, and an exam 3 days out; the
response is `[D1, D2, B1, B2]`. -/
theorem C4_study_today_witness :
    studyToday
      [⟨"D1", "C", "HIGH", "p1", "a1", some 0, some 10⟩,
       ⟨"D2", "C", "HIGH", "p2", "a2", some 0, some 10⟩,
       ⟨"B1", "C", "LOW", "p3", "a3", some 11000, some 0⟩,
       ⟨"B2", "C", "LOW", "p4", "a4", some 12000, some 0⟩,
       ⟨"H3", "C", "HIGH", "p5", "a5", some 13000, some 10⟩]
      [⟨"e1", "exam", some 269200⟩] none 10000 =
      [⟨"D1", "C", "HIGH", "p1", "a1"⟩, ⟨"D2", "C", "HIGH", "p2", "a2"⟩,
       ⟨"B1", "C", "LOW", "p3", "a3"⟩, ⟨"B2", "C", "LOW", "p4", "a4"⟩] := by
  have h := (C4_study_today_amended
      [⟨"D1", "C", "HIGH", "p1", "a1", some 0, some 10⟩,
       ⟨"D2", "C", "HIGH", "p2", "a2", some 0, some 10⟩,
       ⟨"B1", "C", "LOW", "p3", "a3", some 11000, some 0⟩,
       ⟨"B2", "C", "LOW", "p4", "a4", some 12000, some 0⟩,
       ⟨"H3", "C", "HIGH", "p5", "a5", some 13000, some 10⟩]
      [⟨"e1", "exam", some 269200⟩] none 10000).1 269200
      (by decide) (by decide) (by decide) ?hne
  case hne =>
    intro hx
    have h0 := (List.append_eq_nil.mp hx).1
    revert h0
    decide
  have hsort : sortCards
      [⟨"D1", "C", "HIGH", "p1", "a1", some 0, some 10⟩,
       ⟨"D2", "C", "HIGH", "p2", "a2", some 0, some 10⟩,
       ⟨"B1", "C", "LOW", "p3", "a3", some 11000, some 0⟩,
       ⟨"B2", "C", "LOW", "p4", "a4", some 12000, some 0⟩,
       ⟨"H3", "C", "HIGH", "p5", "a5", some 13000, some 10⟩] =
      [⟨"D1", "C", "HIGH", "p1", "a1", some 0, some 10⟩,
       ⟨"D2", "C", "HIGH", "p2", "a2", some 0, some 10⟩,
       ⟨"B1", "C", "LOW", "p3", "a3", some 11000, some 0⟩,
       ⟨"B2", "C", "LOW", "p4", "a4", some 12000, some 0⟩,
       ⟨"H3", "C", "HIGH", "p5", "a5", some 13000, some 10⟩] := by decide
  have hdue : dueCards
      [⟨"D1", "C", "HIGH", "p1", "a1", some 0, some 10⟩,
       ⟨"D2", "C", "HIGH", "p2", "a2", some 0, some 10⟩,
       ⟨"B1", "C", "LOW", "p3", "a3", some 11000, some 0⟩,
       ⟨"B2", "C", "LOW", "p4", "a4", some 12000, some 0⟩,
       ⟨"H3", "C", "HIGH", "p5", "a5", some 13000, some 10⟩] 10000 =
      [⟨"D1", "C", "HIGH", "p1", "a1", some 0, some 10⟩,
       ⟨"D2", "C", "HIGH", "p2", "a2", some 0, some 10⟩] := by decide
  have htcH : topicCards
      [⟨"D1", "C", "HIGH", "p1", "a1", some 0, some 10⟩,
       ⟨"D2", "C", "HIGH", "p2", "a2", some 0, some 10⟩,
       ⟨"B1", "C", "LOW", "p3", "a3", some 11000, some 0⟩,
       ⟨"B2", "C", "LOW", "p4", "a4", some 12000, some 0⟩,
       ⟨"H3", "C", "HIGH", "p5", "a5", some 13000, some 10⟩] "HIGH" =
      [⟨"D1", "C", "HIGH", "p1", "a1", some 0, some 10⟩,
       ⟨"D2", "C", "HIGH", "p2", "a2", some 0, some 10⟩,
       ⟨"H3", "C", "HIGH", "p5", "a5", some 13000, some 10⟩] := by decide
  have htcL : topicCards
      [⟨"D1", "C", "HIGH", "p1", "a1", some 0, some 10⟩,
       ⟨"D2", "C", "HIGH", "p2", "a2", some 0, some 10⟩,
       ⟨"B1", "C", "LOW", "p3", "a3", some 11000, some 0⟩,
       ⟨"B2", "C", "LOW", "p4", "a4", some 12000, some 0⟩,
       ⟨"H3", "C", "HIGH", "p5", "a5", some 13000, some 10⟩] "LOW" =
      [⟨"B1", "C", "LOW", "p3", "a3", some 11000, some 0⟩,
       ⟨"B2", "C", "LOW", "p4", "a4", some 12000, some 0⟩] := by decide
  have hHIGH : topicMastery
      [⟨"D1", "C", "HIGH", "p1", "a1", some 0, some 10⟩,
       ⟨"D2", "C", "HIGH", "p2", "a2", some 0, some 10⟩,
       ⟨"B1", "C", "LOW", "p3", "a3", some 11000, some 0⟩,
       ⟨"B2", "C", "LOW", "p4", "a4", some 12000, some 0⟩,
       ⟨"H3", "C", "HIGH", "p5", "a5", some 13000, some 10⟩] "HIGH" = 1 := by
    unfold topicMastery
    rw [htcH]
    norm_num [masteryScore, min_def, max_def]
  have hLOW : topicMastery
      [⟨"D1", "C", "HIGH", "p1", "a1", some 0, some 10⟩,
       ⟨"D2", "C", "HIGH", "p2", "a2", some 0, some 10⟩,
       ⟨"B1", "C", "LOW", "p3", "a3", some 11000, some 0⟩,
       ⟨"B2", "C", "LOW", "p4", "a4", some 12000, some 0⟩,
       ⟨"H3", "C", "HIGH", "p5", "a5", some 13000, some 10⟩] "LOW" = 0 := by
    unfold topicMastery
    rw [htcL]
    norm_num [masteryScore, min_def, max_def]
  have hlowH : lowMasteryTopic
      [⟨"D1", "C", "HIGH", "p1", "a1", some 0, some 10⟩,
       ⟨"D2", "C", "HIGH", "p2", "a2", some 0, some 10⟩,
       ⟨"B1", "C", "LOW", "p3", "a3", some 11000, some 0⟩,
       ⟨"B2", "C", "LOW", "p4", "a4", some 12000, some 0⟩,
       ⟨"H3", "C", "HIGH", "p5", "a5", some 13000, some 10⟩] "HIGH" = false := by
    have hd : decide (topicMastery
        [⟨"D1", "C", "HIGH", "p1", "a1", some 0, some 10⟩,
       ⟨"D2", "C", "HIGH", "p2", "a2", some 0, some 10⟩,
       ⟨"B1", "C", "LOW", "p3", "a3", some 11000, some 0⟩,
       ⟨"B2", "C", "LOW", "p4", "a4", some 12000, some 0⟩,
       ⟨"H3", "C", "HIGH", "p5", "a5", some 13000, some 10⟩] "HIGH" < 1/2) = false :=
      decide_eq_false (by rw [hHIGH]; norm_num)
    unfold lowMasteryTopic
    rw [hd, htcH]
    rfl
  have hlowL : lowMasteryTopic
      [⟨"D1", "C", "HIGH", "p1", "a1", some 0, some 10⟩,
       ⟨"D2", "C", "HIGH", "p2", "a2", some 0, some 10⟩,
       ⟨"B1", "C", "LOW", "p3", "a3", some 11000, some 0⟩,
       ⟨"B2", "C", "LOW", "p4", "a4", some 12000, some 0⟩,
       ⟨"H3", "C", "HIGH", "p5", "a5", some 13000, some 10⟩] "LOW" = true := by
    have hd : decide (topicMastery
        [⟨"D1", "C", "HIGH", "p1", "a1", some 0, some 10⟩,
       ⟨"D2", "C", "HIGH", "p2", "a2", some 0, some 10⟩,
       ⟨"B1", "C", "LOW", "p3", "a3", some 11000, some 0⟩,
       ⟨"B2", "C", "LOW", "p4", "a4", some 12000, some 0⟩,
       ⟨"H3", "C", "HIGH", "p5", "a5", some 13000, some 10⟩] "LOW" < 1/2) = true :=
      decide_eq_true (by rw [hLOW]; norm_num)
    unfold lowMasteryTopic
    rw [hd, htcL]
    rfl
  have hboost : boosterCards
      [⟨"D1", "C", "HIGH", "p1", "a1", some 0, some 10⟩,
       ⟨"D2", "C", "HIGH", "p2", "a2", some 0, some 10⟩,
       ⟨"B1", "C", "LOW", "p3", "a3", some 11000, some 0⟩,
       ⟨"B2", "C", "LOW", "p4", "a4", some 12000, some 0⟩,
       ⟨"H3", "C", "HIGH", "p5", "a5", some 13000, some 10⟩] 10000 =
      [⟨"B1", "C", "LOW", "p3", "a3", some 11000, some 0⟩,
       ⟨"B2", "C", "LOW", "p4", "a4", some 12000, some 0⟩] := by
    unfold boosterCards
    rw [hsort, hdue]
    simp only [List.filter_cons, List.filter_nil, List.any_cons, List.any_nil,
      hlowH, hlowL]
    norm_num [pySortBy, insertSorted, boosterLe, cardLe, tsSortKey]
  rw [h, hdue, hboost]
  rfl

/-! ### C9 lemmas and theorems -/

lemma validate_ok_reviewedAt {p : ReviewPayload} (h : validateReviewPayload p = none) :
    pyStrip p.reviewedAt ≠ "" := by
  unfold validateReviewPayload at h
  split at h
  · exact absurd h (by simp)
  split at h
  · exact absurd h (by simp)
  split at h
  · exact absurd h (by simp)
  next h3 => exact h3

/-- **C9.** For every syntactically valid `/study/review` payload whose
`cardId` has no stored card, or whose stored card carries a different
`courseId`, the endpoint returns `200 {"accepted": true}` and the cards
table is unchanged. -/
theorem C9_review_missing_card (table : List (String × CardRow)) (p : ReviewPayload)
    (nowWall : Int) (hvalid : validateReviewPayload p = none)
    (hmiss : tableGet table (pyStrip p.cardId) = none ∨
      ∃ row, tableGet table (pyStrip p.cardId) = some row ∧ row.courseId ≠ p.courseId) :
    postStudyReview (some table) p nowWall = .ok (⟨200, some true, none⟩, some table) := by
  have hra := validate_ok_reviewedAt hvalid
  simp only [postStudyReview, hvalid, if_pos hra]
  rcases hmiss with hnone | ⟨row, hsome, hne⟩
  · simp only [updateCardReviewState, hnone]
  · simp only [updateCardReviewState, hsome, if_pos hne]

/-- **C9 witness.** A valid payload for an unknown card id against a
one-row table: the response is `200 {"accepted": true}` and the table is
returned unchanged. -/
theorem C9_review_missing_card_witness :
    postStudyReview
      (some [("c9", ⟨"C2", none, "2026-01-01T00:00:00Z", "2026-01-01T00:00:00Z",
        "2026-01-01T00:00:00Z", 0⟩)])
      ⟨"c1", "C1", 3, "2026-01-02T00:00:00Z"⟩ 0 =
      .ok (⟨200, some true, none⟩,
        some [("c9", ⟨"C2", none, "2026-01-01T00:00:00Z", "2026-01-01T00:00:00Z",
          "2026-01-01T00:00:00Z", 0⟩)]) :=
  C9_review_missing_card _ _ _ (by decide) (Or.inl (by decide))

/-! ### C10 theorems -/

/-- **C10.** For every HTTP request whose method and normalized path (and
path-parameter fallbacks) match no route in the dispatch cascade, the
response is `503` with the live-mode error body when demo mode is off, and
`404 {"error": "not found"}` exactly when demo mode is on. -/
theorem C10_dispatch_fallthrough (method path : String)
    (params : List (String × String)) (demoMode : Bool)
    (h : NoRouteMatches method path params) :
    lambdaDispatch method path params demoMode =
      .response (if demoMode then ⟨404, "not found"⟩
        else ⟨503, "live mode not implemented; set DEMO_MODE=true"⟩) := by
  obtain ⟨h1, h2, h3, h4, h5, h6, h7, h8, h9, h10, h11, h12, h13, h14, h15, h16, h17, h18⟩ := h
  have e5 : (if method = "GET" then materialsPathId path else none) = none := by
    by_cases hg : method = "GET"
    · rw [if_pos hg]
      cases hm : materialsPathId path with
      | none => rfl
      | some c => exact absurd ⟨hg, by rw [hm]; rfl⟩ h5
    · rw [if_neg hg]
  have e6 : (if method = "GET" then extractCourseIdFromPath path params else none) = none := by
    by_cases hg : method = "GET"
    · rw [if_pos hg]
      cases hm : extractCourseIdFromPath path params with
      | none => rfl
      | some c => exact absurd ⟨hg, by rw [hm]; rfl⟩ h6
    · rw [if_neg hg]
  have e9 : (if method = "GET" then docsIngestStatusId path else none) = none := by
    by_cases hg : method = "GET"
    · rw [if_pos hg]
      cases hm : docsIngestStatusId path with
      | none => rfl
      | some c => exact absurd ⟨hg, by rw [hm]; rfl⟩ h9
    · rw [if_neg hg]
  have e15 : (if method = "GET" then extractCalendarToken path params else none) = none := by
    by_cases hg : method = "GET"
    · rw [if_pos hg]
      cases hm : extractCalendarToken path params with
      | none => rfl
      | some c => exact absurd ⟨hg, by rw [hm]; rfl⟩ h15
    · rw [if_neg hg]
  simp only [lambdaDispatch, if_neg h1, if_neg h2, if_neg h3, if_neg h4, e5, e6,
    if_neg h7, if_neg h8, e9, if_neg h10, if_neg h11, if_neg h12, if_neg h13,
    if_neg h14, e15, if_neg h16, if_neg h17, if_neg h18]
  cases demoMode with
  | true => rfl
  | false => rfl

/-- **C10 witness.** `GET /nope` matches no route; with demo mode off the
response is the 503 live-mode error. -/
theorem C10_dispatch_fallthrough_witness :
    lambdaDispatch "GET" "/nope" [] false =
      .response ⟨503, "live mode not implemented; set DEMO_MODE=true"⟩ :=
  C10_dispatch_fallthrough "GET" "/nope" [] false (by unfold NoRouteMatches; decide)


/-- **C5 counterexample.** The claim lists four recovery strategies, among
them a greedy `[...]` slice and a trailing-comma-tolerant re-parse; the
code (`_invoke_model_json`) runs only three: direct parse, fenced block,
greedy `\x7b...\x7d` slice. On the text "noise [1, 2] noise" every code
strategy fails (the text is not JSON, has no fence, and has no brace), so
the handler raises GenerationError, while the claim's strategy list
recovers the array `[1, 2]` via the bracket slice. -/
theorem C5_invoke_model_json_counterexample :
    invokeModelJsonText [⟨"text", some "noise [1, 2] noise"⟩] =
      .genError "model returned invalid JSON payload" ∧
    claimParseModelText "noise [1, 2] noise" = some (.jarr [.jnum 1, .jnum 2]) :=
  ⟨rfl, rfl⟩

/-- **C5 (amended).** `_invoke_model_json`, on a non-empty content array
whose selected text (first `type = "text"` block, else first block) strips
non-empty, returns the result of exactly three strategies in order —
direct `json.loads`, stripped fenced block, greedy brace slice (no
bracket slice, no trailing-comma tolerance) — and raises
`GenerationError` ("model returned invalid JSON payload") iff all three
fail. -/
theorem C5_invoke_model_json_amended (chunks : List ContentBlock) (t : String)
    (hne : chunks ≠ []) (ht : resolvedText chunks = some t) (hs : pyStrip t ≠ "") :
    (invokeModelJsonText chunks = match codeParseModelText t with
      | some v => .ok v
      | none => .genError "model returned invalid JSON payload") ∧
    (∀ v, jsonLoads false t = some v → codeParseModelText t = some v) ∧
    (jsonLoads false t = none →
      ∀ v, (fencedBlock t).bind (fun b => jsonLoads false (pyStrip b)) = some v →
        codeParseModelText t = some v) ∧
    (jsonLoads false t = none →
      (fencedBlock t).bind (fun b => jsonLoads false (pyStrip b)) = none →
      codeParseModelText t = (greedySlice (Char.ofNat 123) (Char.ofNat 125) t).bind
        (fun b => jsonLoads false b)) := by
  have he : chunks.isEmpty = false := isEmpty_false_of_ne_nil hne
  refine ⟨?_, ?_, ?_, ?_⟩
  · simp only [invokeModelJsonText, he, Bool.false_eq_true, if_false, ht]
    rw [if_neg hs]
  · intro v hv
    simp only [codeParseModelText, hv]
  · intro h1 v h2
    simp only [codeParseModelText, h1, h2]
  · intro h1 h2
    simp only [codeParseModelText, h1, h2]

/-- **C5 witness.** A response with a thinking block followed by a text
block carrying a fenced JSON array: the first text block is selected and
the fenced-block strategy recovers `[1, 2]`. -/
theorem C5_invoke_model_json_witness :
    ([(⟨"thinking", none⟩ : ContentBlock), ⟨"text", some "```json\n[1, 2]\n```"⟩] ≠ []) ∧
    resolvedText [⟨"thinking", none⟩, ⟨"text", some "```json\n[1, 2]\n```"⟩] =
      some "```json\n[1, 2]\n```" ∧
    pyStrip "```json\n[1, 2]\n```" ≠ "" ∧
    invokeModelJsonText [⟨"thinking", none⟩, ⟨"text", some "```json\n[1, 2]\n```"⟩] =
      .ok (.jarr [.jnum 1, .jnum 2]) := by
  refine ⟨by decide, by rfl, by decide, ?_⟩
  have h := (C5_invoke_model_json_amended
    [⟨"thinking", none⟩, ⟨"text", some "```json\n[1, 2]\n```"⟩]
    "```json\n[1, 2]\n```" (by decide) (by rfl) (by decide)).1
  rw [h]
  rfl


end GURT

